import Mathlib

/-!
Verification development for the LightOn dark-pattern detector and its
reversible action executor.  The JavaScript sources under `scripts/` are
shallowly embedded: DOM elements are rows of an explicit document list,
identified by their tree path (`List Nat`), so that `a` contains `b`
exactly when `a`'s path is a prefix of `b`'s path.  Browser services
(CSS selector matching, computed styles, regular expressions) are
modelled by executable Lean functions over that document model.
-/

namespace LightOn

/-! ## String utilities (the embedding of `toLowerCase`, `includes`, digit
extraction from CSS color strings) -/

/-- ASCII-lowercase a string, as `String.prototype.toLowerCase` does for
the ASCII identifiers and vocabulary the detector compares. -/
def strLower (s : String) : String := String.mk (s.data.map Char.toLower)

/-- `String.prototype.trim`: strip whitespace from both ends. -/
def strTrim (s : String) : String :=
  String.mk (((s.data.dropWhile (fun c => c.isWhitespace)).reverse.dropWhile
    (fun c => c.isWhitespace)).reverse)

/-- Sublist (contiguous substring) test on character lists. -/
def subListCh : List Char → List Char → Bool
  | [], n => n.isEmpty
  | h :: t, n => n.isPrefixOf (h :: t) || subListCh t n

/-- Case-insensitive substring test, the embedding of
`text.toLowerCase().includes(pattern.toLowerCase())`. -/
def strContainsCI (hay sub : String) : Bool :=
  subListCh (strLower hay).data (strLower sub).data

/-- Case-sensitive substring test, the embedding of `String.prototype.includes`. -/
def strContains (hay sub : String) : Bool :=
  subListCh hay.data sub.data

/-- Extract the maximal digit groups of a character list, carrying the
group currently being read. -/
def extractNumsAux : List Char → Option Nat → List Nat
  | [], none => []
  | [], some n => [n]
  | c :: rest, acc =>
    if c.isDigit then
      extractNumsAux rest (some ((acc.getD 0) * 10 + (c.toNat - 48)))
    else
      match acc with
      | some n => n :: extractNumsAux rest none
      | none => extractNumsAux rest none

/-- Extract the maximal digit groups of a string as numbers: the embedding
of `str.match(/\d+/g).map(Number)` used on CSS color strings. -/
def extractNums (s : String) : List Nat := extractNumsAux s.data none

/-- Keep the first occurrence of each value, preserving order: the
membership behaviour of a JS `Set`/`Map` keyed by the value. -/
def firstDedup {α : Type} [DecidableEq α] : List α → List α
  | [] => []
  | a :: as => a :: (firstDedup as).filter (fun b => b ≠ a)

theorem mem_firstDedup {α : Type} [DecidableEq α] {x : α} :
    ∀ {l : List α}, x ∈ firstDedup l ↔ x ∈ l := by
  intro l
  induction l with
  | nil => simp [firstDedup]
  | cons a as ih =>
    by_cases hx : x = a
    · subst hx; simp [firstDedup]
    · simp [firstDedup, List.mem_filter, hx, ih]

theorem nodup_firstDedup {α : Type} [DecidableEq α] :
    ∀ (l : List α), (firstDedup l).Nodup := by
  intro l
  induction l with
  | nil => simp [firstDedup]
  | cons a as ih =>
    refine List.nodup_cons.mpr ⟨?_, ih.filter _⟩
    intro hmem
    rcases List.mem_filter.mp hmem with ⟨_, hne⟩
    simp at hne

/-! ## Exact rational arithmetic

JS numbers carry the detector's geometry and thresholds; the embedding
uses exact rationals as explicit numerator/denominator pairs with plain
integer arithmetic.  Pairs are not normalised; every pair the embedding
builds keeps a positive denominator (divisions are guarded by the same
positivity tests the source performs), under which the cross-multiplied
comparisons below agree with the rational order. -/

structure Q where
  num : Int
  den : Int := 1
deriving DecidableEq, Repr

instance (n : Nat) : OfNat Q n := ⟨⟨(n : Int), 1⟩⟩

def natToQ (n : Nat) : Q := ⟨(n : Int), 1⟩

def qAdd (a b : Q) : Q := ⟨a.num * b.den + b.num * a.den, a.den * b.den⟩

def qSub (a b : Q) : Q := ⟨a.num * b.den - b.num * a.den, a.den * b.den⟩

def qMul (a b : Q) : Q := ⟨a.num * b.num, a.den * b.den⟩

def qDiv (a b : Q) : Q := ⟨a.num * b.den, a.den * b.num⟩

def qLt (a b : Q) : Bool := decide (a.num * b.den < b.num * a.den)

def qLe (a b : Q) : Bool := decide (a.num * b.den ≤ b.num * a.den)

def qSum (l : List Q) : Q := l.foldl qAdd 0

/-- Rendering of a rational for CSS length strings (integral values
print as integers, as the source's element sizes are). -/
def qToString (q : Q) : String :=
  if q.den = 1 then toString q.num
  else toString q.num ++ "/" ++ toString q.den

/-- The source's decimal literals. -/
def q115 : Q := ⟨115, 100⟩

def q13 : Q := ⟨13, 10⟩

def q02 : Q := ⟨2, 10⟩

def q04 : Q := ⟨4, 10⟩

def q05 : Q := ⟨5, 10⟩

def q01 : Q := ⟨1, 10⟩

def q15 : Q := ⟨15, 10⟩

def q12 : Q := ⟨12, 10⟩

/-- Denotation of a rational pair, used by the correctness lemmas. -/
def qVal (q : Q) : ℚ := (q.num : ℚ) / (q.den : ℚ)

/-- Binary `Math.max`, an executable comparison. -/
def qMax2 (a b : Q) : Q := if qLt a b then b else a

/-- Binary `Math.min`. -/
def qMin2 (a b : Q) : Q := if qLt b a then b else a

/-- `Math.max(...list)` over a non-empty spread (0 for the empty list,
which the sources never pass). -/
def qListMax : List Q → Q
  | [] => 0
  | x :: xs => xs.foldl qMax2 x

/-- `Math.min(...list)` over a non-empty spread. -/
def qListMin : List Q → Q
  | [] => 0
  | x :: xs => xs.foldl qMin2 x

/-! ## C1: deduplication of raw per-rule matches (`deduplicateResults`,
`detector.js` 976–1032).

A raw result carries the matched rule id and the matched node; node
identity and containment are represented by tree paths. -/

/-- Raw per-rule match as aggregated by `scan` before deduplication.  The
`pattern`/`details` payload of the source carries no identity and does
not participate in deduplication, so a result is its rule id together
with its node. -/
structure RawResult where
  patternId : String
  element : List Nat
deriving DecidableEq, Repr

/-- DOM containment: `a.contains(b)` holds when `b` is `a` itself or a
descendant of `a`, i.e. when `a`'s path is a prefix of `b`'s path. -/
def domContains (a b : List Nat) : Bool := a.isPrefixOf b

/-- First pass of per-rule deduplication: drop results whose element was
already seen, the embedding of the `seenElements` set loop. -/
def dedupByElementAux (seen : List (List Nat)) : List RawResult → List RawResult
  | [] => []
  | r :: rs =>
    if r.element ∈ seen then dedupByElementAux seen rs
    else r :: dedupByElementAux (r.element :: seen) rs

/-- Hold of the `hasDescendantMatch` inner loop: some other unique result
is a strict descendant of `r`. -/
def hasDescendantMatch (uniqueResults : List RawResult) (r : RawResult) : Bool :=
  uniqueResults.any (fun other =>
    decide (other ≠ r) && (domContains r.element other.element &&
      decide (r.element ≠ other.element)))

/-- Per-rule group output of `deduplicateResults`: same-element duplicates
removed, then ancestors of surviving matches discarded. -/
def dedupGroup (patternResults : List RawResult) : List RawResult :=
  let uniqueResults := dedupByElementAux [] patternResults
  if uniqueResults.length = 1 then uniqueResults
  else uniqueResults.filter (fun r => ! hasDescendantMatch uniqueResults r)

/-- Embedding of `deduplicateResults` (`detector.js` 976–1032): group by
rule id in first-occurrence order, collapse same-node duplicates, and keep
only results with no strict-descendant match for the same rule. -/
def deduplicateResults (results : List RawResult) : List RawResult :=
  let ids := firstDedup (results.map (·.patternId))
  ids.flatMap (fun pid =>
    dedupGroup (results.filter (fun r => r.patternId = pid)))

/-- Characterisation of survival under deduplication: the result occurs in
the input and no other input match for the same rule sits strictly below
its node. -/
def Survives (results : List RawResult) (r : RawResult) : Prop :=
  r ∈ results ∧
    ¬ ∃ o ∈ results, o.patternId = r.patternId ∧ r.element ≠ o.element ∧
      r.element <+: o.element

/-! ## Document model

Elements are rows of a document list in document order; an element's
identity is its tree path.  Computed styles (`getComputedStyle`) are
snapshots provided by the rendering collaborator; numeric CSS values are
stored already parsed (an absent/unparsable value, JS `NaN`, is `none`).
The executor's mutations touch the element's inline `style` list. -/

/-- Computed `transform`: by modelling convention `otherTransform` strings
never contain the substring "scale", which is carried by the `scale`
constructor together with its parsed argument. -/
inductive TransformVal where
  | noTransform
  | scale (v : Q)
  | otherTransform (s : String)
deriving DecidableEq, Repr

/-- Computed-style snapshot with the properties the detector and the
action implementations read. -/
structure CStyle where
  display : String := "block"
  visibility : String := "visible"
  position : String := "static"
  fontSize : Q := 16
  fontWeight : Option Int := Option.none
  fontFamily : String := "sans-serif"
  color : String := "rgb(0, 0, 0)"
  backgroundColor : String := "rgba(0, 0, 0, 0)"
  border : String := ""
  borderWidth : Option Q := Option.none
  borderColor : String := ""
  borderRadius : String := ""
  background : String := ""
  boxShadow : String := "none"
  transform : TransformVal := .noTransform
  zIndex : Option Int := Option.none
  paddingTop : Q := 0
  paddingBottom : Q := 0
  padding : String := ""
  flex : String := ""
deriving DecidableEq, Repr

/-- Inline style declarations (`element.style`), an ordered property list;
reading an unset property yields the empty string as in the DOM. -/
abbrev InlineStyle := List (String × String)

/-- Read an inline style property (empty string when unset). -/
def styleGet (st : InlineStyle) (k : String) : String :=
  ((st.find? (fun pr => pr.1 = k)).map Prod.snd).getD ""

/-- Write an inline style property, overwriting an existing declaration. -/
def styleSet (st : InlineStyle) (k v : String) : InlineStyle :=
  if st.any (fun pr => pr.1 = k) then
    st.map (fun pr => if pr.1 = k then (k, v) else pr)
  else st ++ [(k, v)]

/-- Serialised inline style (`cssText`); empty declarations are omitted
as the DOM serialiser does. -/
def styleSerialize (st : InlineStyle) : String :=
  String.intercalate "; " ((st.filter (fun pr => pr.2 ≠ "")).map
    (fun pr => pr.1 ++ ": " ++ pr.2))

/-- A DOM element: identity is the tree path; `ownText` is the
concatenated text of the element's direct text nodes. -/
structure Elem where
  path : List Nat
  tag : String := "DIV"
  classes : List String := []
  attrs : List (String × String) := []
  checked : Bool := false
  value : String := ""
  placeholder : String := ""
  ownText : String := ""
  style : InlineStyle := []
  computed : CStyle := {}
  width : Q := 0
  height : Q := 0
deriving DecidableEq, Repr

instance : Inhabited Elem := ⟨{ path := [] }⟩

/-- Attribute lookup (`getAttribute`). -/
def attrOf? (e : Elem) (k : String) : Option String :=
  (e.attrs.find? (fun pr => pr.1 = k)).map Prod.snd

/-- A document: its elements in document order. -/
abbrev Dom := List Elem

/-- Find the element at a path. -/
def findElem (dom : Dom) (p : List Nat) : Option Elem :=
  dom.find? (fun e => e.path = p)

/-- Element at a path, defaulting like a detached element reference. -/
def getElemD (dom : Dom) (p : List Nat) : Elem :=
  (findElem dom p).getD default

/-- Direct children of the element at `p`, in document order. -/
def childrenOf (dom : Dom) (p : List Nat) : List Elem :=
  dom.filter (fun e => decide (e.path ≠ []) && decide (e.path.dropLast = p))

/-- Strict descendants of the element at `p`, in document order:
the result set of `querySelectorAll` before selector filtering. -/
def descendantsOf (dom : Dom) (p : List Nat) : List Elem :=
  dom.filter (fun e => p.isPrefixOf e.path && decide (e.path ≠ p))

/-- Parent element (`parentElement`): none at the document root. -/
def parentElem (dom : Dom) (p : List Nat) : Option Elem :=
  match p with
  | [] => Option.none
  | _ => findElem dom p.dropLast

/-- The chain element, parent, …, stopping strictly below the root:
the traversal of `isInModalContext` (root path `[]` is `document.body`). -/
def nonemptyPrefixesDesc (p : List Nat) : List (List Nat) :=
  (List.range p.length).map (fun i => p.take (p.length - i))

/-- The chain element, parent, …, including the root: the traversal of
`Element.closest`. -/
def selfAndAncestors (p : List Nat) : List (List Nat) :=
  nonemptyPrefixesDesc p ++ [[]]

/-! ## Selector model

The subset of CSS selectors the sources pass to the browser's matching
service, as explicit data with its semantics. -/

inductive Sel where
  | univ
  | tag (t : String)
  | classExact (c : String)
  | classContains (s : String)
  | idContains (s : String)
  | attrEq (k v : String)
  | attrHas (k : String)
  | tagAttrEq (t k v : String)
  | styleContains (s : String)
  | inputChecked
deriving DecidableEq, Repr

/-- The serialised class attribute (`classList.toString()`). -/
def classAttr (e : Elem) : String := String.intercalate " " e.classes

/-- Selector matching (`Element.matches`). -/
def matchesSel (e : Elem) : Sel → Bool
  | .univ => true
  | .tag t => strLower e.tag = strLower t
  | .classExact c => e.classes.contains c
  | .classContains s => strContains (classAttr e) s
  | .idContains s => strContains ((attrOf? e "id").getD "") s
  | .attrEq k v => attrOf? e k = some v
  | .attrHas k => (attrOf? e k).isSome
  | .tagAttrEq t k v => decide (strLower e.tag = strLower t) && decide (attrOf? e k = some v)
  | .styleContains s => strContains (styleSerialize e.style) s
  | .inputChecked =>
      decide (e.tag = "INPUT") && decide (attrOf? e "type" = some "checkbox") && e.checked

/-- Match against any selector of a comma list. -/
def matchesSelList (e : Elem) (sels : List Sel) : Bool :=
  sels.any (matchesSel e)

/-- `root.querySelectorAll(sel)`: matching strict descendants in
document order. -/
def querySelectorAll (dom : Dom) (root : List Nat) (sel : Sel) : List Elem :=
  (descendantsOf dom root).filter (fun e => matchesSel e sel)

/-- `root.querySelectorAll("s1, s2, …")`: one query with a comma list,
document order, no duplicates. -/
def querySelectorAllMulti (dom : Dom) (root : List Nat) (sels : List Sel) : List Elem :=
  (descendantsOf dom root).filter (fun e => matchesSelList e sels)

/-- `Element.closest`: nearest self-or-ancestor matching one of the
selectors. -/
def closestElem (dom : Dom) (p : List Nat) (sels : List Sel) : Option Elem :=
  (selfAndAncestors p).findSome? (fun q =>
    match findElem dom q with
    | some el => if matchesSelList el sels then some el else Option.none
    | Option.none => Option.none)

/-! ## Text patterns

The rule files hold literal strings and regular expressions; both are
embedded as `Pat` values whose decision functions implement the regex
semantics the catalog actually uses (case-insensitive literal
alternatives, `.?` separators, `\s*` gaps, `save\s*\d+%`). -/

inductive Pat where
  | lit (s : String)
  | sepOpt (a b : String)
  | seqSp (a b : String)
  | saveNumPercent
  | bestValueOrDeal
  | exactly (s : String)
deriving DecidableEq, Repr

/-- Word characters of JS regex `\w`. -/
def isWordCh (c : Char) : Bool := c.isAlphanum || c = '_'

/-- Test a predicate at each suffix position of a character list. -/
def anyPos (f : List Char → Bool) : List Char → Bool
  | [] => f []
  | c :: t => f (c :: t) || anyPos f t

/-- Occurrence of `a`, an optional whitespace run, then `b`:
the shape of `/a\s*b/i`. -/
def seqSpCh (a b : String) (lc : List Char) : Bool :=
  let aa := (strLower a).data
  let bb := (strLower b).data
  anyPos (fun suf =>
    aa.isPrefixOf suf &&
      bb.isPrefixOf ((suf.drop aa.length).dropWhile (fun c => c.isWhitespace))) lc

/-- Decision function of a single pattern against lowercased text. -/
def patTestCh (lc : List Char) : Pat → Bool
  | .lit s => subListCh lc (strLower s).data
  | .sepOpt a b =>
      let aa := (strLower a).data
      let bb := (strLower b).data
      anyPos (fun suf =>
        aa.isPrefixOf suf &&
          (bb.isPrefixOf (suf.drop aa.length) ||
           bb.isPrefixOf (suf.drop (aa.length + 1)))) lc
  | .seqSp a b => seqSpCh a b lc
  | .saveNumPercent =>
      anyPos (fun suf =>
        "save".data.isPrefixOf suf &&
          (let rest := (suf.drop 4).dropWhile (fun c => c.isWhitespace)
           let digits := rest.takeWhile Char.isDigit
           decide (digits ≠ []) && decide ((rest.drop digits.length).head? = some '%'))) lc
  | .bestValueOrDeal => seqSpCh "best" "value" lc || seqSpCh "best" "deal" lc
  | .exactly s => decide (lc = (strLower s).data)

/-- Test text against one pattern, lowercasing both sides as the
case-insensitive regex flags and `toLowerCase` calls do. -/
def patTest (text : String) (p : Pat) : Bool :=
  patTestCh (strLower text).data p

/-- Embedding of `matchesPatterns` (`detector.js` 87–98): any pattern of
the array accepts; empty text never matches. -/
def matchesPatterns (text : String) (patterns : List Pat) : Bool :=
  decide (text ≠ "") && patterns.any (patTest text)

/-- Case-insensitive containment of a word with `\b` boundaries on both
sides, the embedding of `\b(…)\b` groups. -/
def containsWordCI (hay word : String) : Bool :=
  let w := (strLower word).data
  let rec go (prevW : Bool) : List Char → Bool
    | [] => false
    | c :: t =>
        (!prevW && w.isPrefixOf (c :: t) &&
          (match (c :: t).drop w.length with
           | [] => true
           | d :: _ => !isWordCh d)) ||
        go (isWordCh c) t
  go false (strLower hay).data

/-! ## Matching-engine helpers (`detector.js` 49–393) -/

/-- Visibility of an element's own text nodes: the tree-walker filter
rejects text whose parent element is hidden. -/
def textVisible (d : Elem) : Bool :=
  !(decide (d.computed.display = "none") || decide (d.computed.visibility = "hidden"))

/-- Embedding of `getVisibleText` (`detector.js` 49–82): a form control's
value or placeholder, otherwise the text of non-hidden descendants. -/
def getVisibleText (dom : Dom) (e : Elem) : String :=
  if e.tag = "INPUT" then (if e.value ≠ "" then e.value else e.placeholder)
  else
    String.intercalate " "
      (((e :: descendantsOf dom e.path).filter
        (fun d => textVisible d && decide (d.ownText ≠ ""))).map (·.ownText))

/-- Raw `textContent` of an element's subtree (no visibility filter). -/
def textContentOf (dom : Dom) (e : Elem) : String :=
  String.join ((e :: descendantsOf dom e.path).map (·.ownText))

/-- A context entry of a text detector: a selector or the wildcard. -/
inductive ContextSel where
  | star
  | sel (s : Sel)
deriving DecidableEq, Repr

/-- Embedding of `matchesContext` (`detector.js` 103–116). -/
def matchesContext (e : Elem) (contexts : Option (List ContextSel)) : Bool :=
  match contexts with
  | Option.none => true
  | some cs =>
      cs.isEmpty || cs.contains .star ||
        cs.any (fun c =>
          match c with
          | .star => true
          | .sel s => matchesSel e s)

/-- The structural price-context selectors of `detector.js` 121–127. -/
def priceContextSelectors : List Sel :=
  [.classContains "price", .classContains "cost", .classContains "amount",
   .classContains "total", .classContains "checkout", .classContains "cart",
   .classContains "order", .classContains "payment", .classContains "billing",
   .classContains "shipping",
   .idContains "price", .idContains "cost", .idContains "amount",
   .idContains "total", .idContains "checkout", .idContains "cart",
   .idContains "order"]

/-- Embedding of `priceTextPattern`/`isPriceText` (`detector.js` 129–133):
currency symbols, word-bounded English price words, an amount followed by
a Korean currency word, or Korean price vocabulary. -/
def isPriceText (text : String) : Bool :=
  decide (text ≠ "") &&
  (["$", "€", "£", "¥", "₩"].any (fun c => strContains text c) ||
   ["usd", "eur", "gbp", "jpy", "krw", "price", "total", "amount", "cost",
    "fee", "charge", "shipping", "tax"].any (fun w => containsWordCI text w) ||
   anyPos (fun suf =>
     match suf with
     | c :: rest =>
         c.isDigit &&
           (let rest2 := (rest.dropWhile (fun d =>
               d.isDigit || d = ',' || d = '.')).dropWhile (fun d => d.isWhitespace)
            ["원", "달러", "엔", "유로", "파운드", "위안"].any
              (fun w => w.data.isPrefixOf rest2))
     | [] => false) (strLower text).data ||
   ["가격", "요금", "금액", "합계", "총액", "결제", "구매", "배송비", "세금"].any
     (fun w => strContains text w))

/-- Embedding of `hasPriceContext` (`detector.js` 135–166): a structural
hint via `closest`, or price-looking text on the element, its parent,
grandparent, or a sibling. -/
def hasPriceContext (dom : Dom) (e : Elem) : Bool :=
  priceContextSelectors.any (fun sel => (closestElem dom e.path [sel]).isSome) ||
  (let parentCandidates :=
     (match parentElem dom e.path with
      | some par => [par] ++
          (match parentElem dom par.path with
           | some gp => [gp]
           | Option.none => [])
      | Option.none => [])
   let sibs :=
     match parentElem dom e.path with
     | some par => childrenOf dom par.path
     | Option.none => []
   ([e] ++ parentCandidates ++ sibs).any (fun c => isPriceText (getVisibleText dom c)))

/-- Embedding of `isInModalContext` (`detector.js` 171–186): the element
or an ancestor strictly below `document.body` matches a context selector;
a missing selector list passes. -/
def isInModalContext (dom : Dom) (e : Elem) (contextSelectors : Option (List Sel)) :
    Bool :=
  match contextSelectors with
  | Option.none => true
  | some sels =>
      (nonemptyPrefixesDesc e.path).any (fun q =>
        match findElem dom q with
        | some el => matchesSelList el sels
        | Option.none => false)

/-! ## Visual property checks (`checkVisualProperties`, `detector.js`
191–349).  The `passed` flag computed by the source is never read by any
caller (they use only `details`), so the embedding returns the details
record. -/

/-- Visual-check configuration of a detector. -/
structure VisualChecks where
  checkSmallFont : Bool := false
  maxFontSize : Option Q := Option.none
  checkMutedColor : Bool := false
  checkLowContrast : Bool := false
  checkProminentStyling : Bool := false
  checkLargerSize : Bool := false
  checkCenterPosition : Bool := false
  checkBadge : Bool := false
  compareWithSiblings : Bool := false
  compareSiblingSize : Bool := false
  compareSiblingColor : Bool := false
  checkPrimarySecondaryPattern : Bool := false
deriving DecidableEq, Repr

/-- Signals attached by `checkVisualProperties`. -/
structure VisualDetails where
  smallFont : Bool := false
  mutedColor : Bool := false
  prominentStyling : Bool := false
  largerSize : Bool := false
  centerPosition : Bool := false
  hasBadge : Bool := false
deriving DecidableEq, Repr

/-- No signal attached (`Object.keys(details).length === 0`). -/
def VisualDetails.isEmptyDetails (d : VisualDetails) : Bool :=
  !(d.smallFont || d.mutedColor || d.prominentStyling || d.largerSize ||
    d.centerPosition || d.hasBadge)

/-- Scan-engine configuration (`detector.js` 24–33). -/
def minFontSizeThreshold : Q := 11

def maxElementsPerScan : Nat := 1000

def excludeSelectors : List Sel :=
  [.tag "script", .tag "style", .tag "noscript", .tag "template",
   .attrHas "data-lighton-ignore"]

/-- Saturation of an `r, g, b` triple as the source computes it. -/
def rgbSaturation (r g b : Nat) : Q :=
  let mx := max r (max g b)
  if mx = 0 then 0
  else qDiv (qSub (natToQ mx) (natToQ (min r (min g b)))) (natToQ mx)

/-- Perceived brightness of an `r, g, b` triple. -/
def rgbBrightness (r g b : Nat) : Q :=
  qDiv (natToQ (r * 299 + g * 587 + b * 114)) 1000

/-- Badge selectors of the `checkBadge` branch (`detector.js` 321–325). -/
def badgeSelectorsVisual : List Sel :=
  [.classExact "badge", .classExact "ribbon", .classExact "tag", .classExact "label",
   .classContains "badge", .classContains "ribbon", .classContains "tag",
   .classContains "recommend", .classContains "featured"]

/-- Embedding of `checkVisualProperties` (`detector.js` 191–349). -/
def checkVisualProperties (dom : Dom) (e : Elem) (visualChecks : Option VisualChecks) :
    VisualDetails :=
  match visualChecks with
  | Option.none => {}
  | some vc =>
    let style := e.computed
    let d0 : VisualDetails := {}
    let d1 :=
      if vc.checkSmallFont ||
          (match vc.maxFontSize with | some q => decide (q ≠ 0) | Option.none => false) then
        let threshold :=
          match vc.maxFontSize with
          | some q => if q = 0 then minFontSizeThreshold else q
          | Option.none => minFontSizeThreshold
        if qLe style.fontSize threshold then { d0 with smallFont := true } else d0
      else d0
    let d2 :=
      if vc.checkMutedColor || vc.checkLowContrast then
        match extractNums style.color with
        | r :: g :: b :: _ =>
          if qLt (rgbSaturation r g b) q02 && qLt 100 (rgbBrightness r g b) &&
              qLt (rgbBrightness r g b) 180 then
            { d1 with mutedColor := true }
          else d1
        | _ => d1
      else d1
    let d3 :=
      if vc.checkProminentStyling then
        let isProminent :=
          (match extractNums style.backgroundColor with
           | r :: g :: b :: _ => qLt q04 (rgbSaturation r g b)
           | _ => false) ||
          qLt 2 (style.borderWidth.getD 0) ||
          (decide (style.boxShadow ≠ "") && decide (style.boxShadow ≠ "none")) ||
          (match style.transform with
           | .scale _ => true
           | _ => false)
        if isProminent then { d2 with prominentStyling := true } else d2
      else d2
    let d4 :=
      if vc.checkLargerSize then
        match parentElem dom e.path with
        | some par =>
          let siblings := (childrenOf dom par.path).filter
            (fun el => decide (el ≠ e) &&
              !(matchesSelList el [.tag "script", .tag "style"]))
          if siblings.length > 0 then
            let elementArea := qMul e.width e.height
            let avgSiblingArea :=
              qDiv (qSum (siblings.map (fun sib => qMul sib.width sib.height)))
                (natToQ siblings.length)
            if qLt (qMul avgSiblingArea q13) elementArea then
              { d3 with largerSize := true }
            else d3
          else d3
        | Option.none => d3
      else d3
    let d5 :=
      if vc.checkCenterPosition then
        match parentElem dom e.path with
        | some par =>
          let siblings := (childrenOf dom par.path).filter
            (fun el => !(matchesSelList el [.tag "script", .tag "style"]))
          if siblings.length ≥ 3 then
            if siblings.indexOf e = siblings.length / 2 then
              { d4 with centerPosition := true }
            else d4
          else d4
        | Option.none => d4
      else d4
    let d6 :=
      if vc.checkBadge then
        let viaChild := badgeSelectorsVisual.any
          (fun sel => (querySelectorAll dom e.path sel) ≠ [])
        let viaSelf :=
          (decide (style.position = "absolute") || decide (style.position = "relative")) &&
          decide (style.zIndex.getD 0 > 0) &&
          (match parentElem dom e.path with
           | some par => decide (styleGet par.style "position" = "relative")
           | Option.none => false)
        if viaChild || viaSelf then { d5 with hasBadge := true } else d5
      else d5
    d6

/-- Embedding of `hasNearbyText` (`detector.js` 354–383). -/
def hasNearbyText (dom : Dom) (e : Elem) (patterns : List Pat) : Bool :=
  patterns.isEmpty ||
  (match parentElem dom e.path with
   | some par => matchesPatterns (getVisibleText dom par) patterns
   | Option.none => false) ||
  ((match parentElem dom e.path with
    | some par => childrenOf dom par.path
    | Option.none => []).any (fun sib =>
      decide (sib ≠ e) && matchesPatterns (getVisibleText dom sib) patterns)) ||
  (match attrOf? e "id" with
   | some id =>
     (match dom.find? (fun l => decide (l.tag = "LABEL") &&
         decide (attrOf? l "for" = some id)) with
      | some lab => matchesPatterns (getVisibleText dom lab) patterns
      | Option.none => false)
   | Option.none => false)

/-- Embedding of `shouldExclude` (`detector.js` 388–393). -/
def shouldExclude (dom : Dom) (e : Elem) (excludePatterns : Option (List Pat)) : Bool :=
  match excludePatterns with
  | Option.none => false
  | some pats => matchesPatterns (getVisibleText dom e) pats

/-! ## Detector and rule model -/

/-- Prominence thresholds of a combined detector. -/
structure Thresholds where
  prominenceScore : Option Nat := Option.none
deriving DecidableEq, Repr

/-- A detector, the tagged record the rule files supply; absent optional
fields are `none` exactly where the JS field is absent. -/
structure Detector where
  type : String
  patterns : List Pat := []
  contexts : Option (List ContextSel) := Option.none
  nearPriceElement : Bool := false
  requiresModalContext : Bool := false
  contextSelectors : Option (List Sel) := Option.none
  selectors : Option (List Sel) := Option.none
  nearbyTextPatterns : Option (List Pat) := Option.none
  excludePatterns : Option (List Pat) := Option.none
  visualChecks : Option VisualChecks := Option.none
  textPatterns : Option (List Pat) := Option.none
  siblingAnalysis : Bool := false
  containerSelectors : Option (List Sel) := Option.none
  contextTextPatterns : Option (List Pat) := Option.none
  skipContextCheck : Bool := false
  thresholds : Option Thresholds := Option.none
deriving DecidableEq, Repr

/-- A pattern rule of the catalog. -/
structure PatternDef where
  id : String
  category : String := ""
  severity : String := ""
  detectors : List Detector := []
deriving DecidableEq, Repr

/-- A raw detector match before aggregation (`{element, text?,
visualDetails?, prominenceScore?}`). -/
structure DetMatch where
  element : List Nat
  text : String := ""
  visualDetails : VisualDetails := {}
  prominenceScore : Nat := 0
deriving DecidableEq, Repr

/-! ## Detector processors (`detector.js` 398–936) -/

/-- Embedding of `processTextDetector` (`detector.js` 398–431). -/
def processTextDetector (det : Detector) (elements : List Elem) (dom : Dom) :
    List DetMatch :=
  elements.filterMap (fun e =>
    if !matchesContext e det.contexts then Option.none
    else if det.nearPriceElement && !hasPriceContext dom e then Option.none
    else if det.requiresModalContext && !isInModalContext dom e det.contextSelectors then
      Option.none
    else
      let text := getVisibleText dom e
      if text = "" then Option.none
      else if matchesPatterns text det.patterns then
        some { element := e.path, text := text,
               visualDetails := checkVisualProperties dom e det.visualChecks }
      else Option.none)

/-- Embedding of `processSelectorDetector` (`detector.js` 436–479); the
selector loop becomes a `flatMap` over the selector array. -/
def processSelectorDetector (det : Detector) (dom : Dom) (root : List Nat) :
    List DetMatch :=
  (det.selectors.getD []).flatMap (fun sel =>
    (querySelectorAll dom root sel).filterMap (fun e =>
      if det.contextSelectors.isSome && !isInModalContext dom e det.contextSelectors then
        Option.none
      else if det.nearPriceElement && !hasPriceContext dom e then Option.none
      else if det.nearbyTextPatterns.isSome &&
          !hasNearbyText dom e (det.nearbyTextPatterns.getD []) then Option.none
      else if shouldExclude dom e det.excludePatterns then Option.none
      else
        some { element := e.path,
               visualDetails := checkVisualProperties dom e det.visualChecks }))

/-! ### Visual prominence scoring (`calculateVisualProminence`,
`detector.js` 485–621) -/

/-- Signals attached by the prominence scorer. -/
structure ProminenceDetails where
  largerSize : Bool := false
  hasBoxShadow : Bool := false
  hasScale : Bool := false
  higherSaturation : Bool := false
  thickerBorder : Bool := false
  hasBadge : Bool := false
  elevatedZIndex : Bool := false
deriving DecidableEq, Repr

/-- The badge text vocabulary (`badgePatterns`, `detector.js` 578–582),
each regex alternative as a pattern. -/
def badgeTextPatterns : List Pat :=
  [.lit "추천", .lit "BEST", .lit "베스트", .lit "인기", .lit "권장", .lit "특가",
   .lit "프리미엄", .lit "PREMIUM",
   .lit "recommended", .lit "best", .lit "popular", .lit "featured",
   .sepOpt "top" "pick", .sepOpt "most" "popular",
   .saveNumPercent, .bestValueOrDeal, .lit "limited"]

/-- Badge descendant selectors (`badgeSelectors`, `detector.js` 594–598). -/
def badgeSelectorsProminence : List Sel :=
  [.classExact "badge", .classExact "ribbon", .classExact "tag", .classExact "label",
   .classContains "badge", .classContains "ribbon", .classContains "recommend",
   .classContains "featured", .classContains "popular", .classContains "best"]

/-- Embedding of `calculateVisualProminence` (`detector.js` 485–621):
additive score of an element against its sibling set. -/
def calculateVisualProminence (dom : Dom) (e : Elem) (siblings : List Elem) :
    Nat × ProminenceDetails :=
  let style := e.computed
  let elementArea := qMul e.width e.height
  let siblingAreas := siblings.map (fun sib => qMul sib.width sib.height)
  let avgSiblingArea :=
    if siblingAreas.length > 0 then qDiv (qSum siblingAreas) (natToQ siblingAreas.length)
    else elementArea
  let sizeRatioV := if qLt 0 avgSiblingArea then qDiv elementArea avgSiblingArea else 1
  let s1 : Nat := if qLt q115 sizeRatioV then 1 else 0
  let s2 : Nat :=
    if style.boxShadow ≠ "" ∧ style.boxShadow ≠ "none" then 1 else 0
  let s3 : Nat :=
    match style.transform with
    | .scale v => if qLt 1 v then 1 else 0
    | _ => 0
  let s4 : Nat :=
    match extractNums style.backgroundColor with
    | r :: g :: b :: _ =>
      let saturation := rgbSaturation r g b
      let sibSats := siblings.filterMap (fun sib =>
        match extractNums sib.computed.backgroundColor with
        | sr :: sg :: sb :: _ => some (rgbSaturation sr sg sb)
        | _ => Option.none)
      let avgSibSaturation :=
        if sibSats.length > 0 then qDiv (qSum sibSats) (natToQ sibSats.length) else 0
      if qLt (qAdd avgSibSaturation q02) saturation then 1 else 0
    | _ => 0
  let borderW := style.borderWidth.getD 0
  let sibBorders := siblings.map (fun sib => sib.computed.borderWidth.getD 0)
  let avgSibBorder :=
    if sibBorders.length > 0 then qDiv (qSum sibBorders) (natToQ sibBorders.length) else 0
  let s5 : Nat := if qLt (qAdd avgSibBorder 1) borderW then 1 else 0
  let elementText := getVisibleText dom e
  let textBadge := badgeTextPatterns.any (patTest elementText)
  let s6 : Nat := if textBadge then 2 else 0
  let childBadge := badgeSelectorsProminence.any
    (fun sel => (querySelectorAll dom e.path sel) ≠ [])
  let s7 : Nat := if childBadge ∧ ¬ textBadge then 2 else 0
  let s8 : Nat := if style.zIndex.getD 0 > 0 then 1 else 0
  (s1 + s2 + s3 + s4 + s5 + s6 + s7 + s8,
   { largerSize := s1 = 1, hasBoxShadow := s2 = 1, hasScale := s3 = 1,
     higherSaturation := s4 = 1, thickerBorder := s5 = 1,
     hasBadge := textBadge || childBadge, elevatedZIndex := s8 = 1 })

/-- Default container selectors of the hierarchy detector
(`detector.js` 631–635). -/
def defaultContainerSelectors : List Sel :=
  [.classContains "pricing", .classContains "plan", .classContains "subscription",
   .classContains "option", .classContains "tier", .classContains "package",
   .classContains "card-group", .classContains "cards"]

/-- Pricing-context test of the container text (`detector.js` 685). -/
def isPricingContextText (text : String) : Bool :=
  ["₩", "원", "$", "usd", "월", "year", "month", "요금", "가격", "price", "plan",
   "subscription", "옵션", "option"].any (fun w => strContainsCI text w)

/-- Children considered comparable items of a hierarchy container
(`!c.matches('script, style, br, span, a')`). -/
def hierarchyChildFilter (c : Elem) : Bool :=
  !(matchesSelList c [.tag "script", .tag "style", .tag "br", .tag "span", .tag "a"])

/-- Threshold of the hierarchy detector:
`detector.thresholds?.prominenceScore || 3`. -/
def prominenceThreshold (det : Detector) : Nat :=
  match det.thresholds with
  | some t =>
    (match t.prominenceScore with
     | some n => if n = 0 then 3 else n
     | Option.none => 3)
  | Option.none => 3

/-- Container collection of `processVisualHierarchyDetector`
(`detector.js` 637–669): selector hits, inline flex/grid containers with
two comparable children, and computed flex/grid `div`/`section`/`article`
elements with two comparable children, deduplicated in insertion order. -/
def hierarchyContainers (det : Detector) (dom : Dom) (root : List Nat) : List Elem :=
  let containerSelectors := det.containerSelectors.getD defaultContainerSelectors
  let fromSelectors := containerSelectors.flatMap (fun sel => querySelectorAll dom root sel)
  let flexGridInline :=
    (querySelectorAllMulti dom root [.styleContains "flex", .styleContains "grid"]).filter
      (fun c =>
        ((childrenOf dom c.path).filter
          (fun x => !(matchesSelList x [.tag "script", .tag "style", .tag "br"]))).length ≥ 2)
  let flexGridComputed :=
    (querySelectorAllMulti dom root [.tag "div", .tag "section", .tag "article"]).filter
      (fun d =>
        (decide (d.computed.display = "flex") || decide (d.computed.display = "grid")) &&
        decide (((childrenOf dom d.path).filter
          (fun x => !(matchesSelList x [.tag "script", .tag "style", .tag "br"]))).length ≥ 2))
  firstDedup (fromSelectors ++ flexGridInline ++ flexGridComputed)

/-- The comparable children of a hierarchy container. -/
def hierarchyQualifyingChildren (dom : Dom) (container : Elem) : List Elem :=
  (childrenOf dom container.path).filter hierarchyChildFilter

/-- Embedding of `processVisualHierarchyDetector` (`detector.js`
627–719). -/
def processVisualHierarchyDetector (det : Detector) (dom : Dom) (root : List Nat) :
    List DetMatch :=
  (hierarchyContainers det dom root).flatMap (fun container =>
    let children := hierarchyQualifyingChildren dom container
    if children.length < 2 then []
    else
      let containerText := getVisibleText dom container
      if det.contextTextPatterns.isSome &&
          !matchesPatterns containerText (det.contextTextPatterns.getD []) then []
      else if !isPricingContextText containerText && !det.skipContextCheck then []
      else
        let threshold := prominenceThreshold det
        children.filterMap (fun child =>
          let siblings := children.filter (fun c => c ≠ child)
          let scored := calculateVisualProminence dom child siblings
          if scored.1 ≥ threshold then
            some { element := child.path, text := getVisibleText dom child,
                   prominenceScore := scored.1 }
          else Option.none))

/-! ### Asymmetric buttons (`processAsymmetricButtonsDetector`,
`detector.js` 726–869) -/

/-- Modal/dialog/section selectors (`modalSelectors`, `detector.js`
730–743). -/
def modalSelectors : List Sel :=
  [.attrEq "role" "dialog", .attrEq "role" "alertdialog",
   .classExact "modal", .classContains "modal", .classContains "popup",
   .classContains "dialog", .classContains "overlay", .classContains "toast",
   .classContains "notification",
   .classContains "subscription", .classContains "premium", .classContains "pricing",
   .classContains "billing", .classContains "payment", .classContains "plan",
   .classContains "upgrade", .classContains "cancel",
   .classContains "card", .classContains "action", .classContains "cta",
   .tag "form"]

/-- Clickable-control selectors of the asymmetry detector
(`detector.js` 770–772). -/
def clickableSelectors : List Sel :=
  [.tag "button", .attrEq "role" "button", .tag "a",
   .tagAttrEq "input" "type" "submit", .tagAttrEq "input" "type" "button"]

/-- Per-control metrics of the asymmetry detector (`detector.js`
786–816). -/
structure BtnMetrics where
  element : List Nat
  text : String
  area : Q
  width : Q
  height : Q
  fontSize : Q
  fontWeight : Int
  bgBrightness : Q
  bgSaturation : Q
  hasBackground : Bool
  padding : Q
deriving DecidableEq, Repr

/-- Compute one control's metrics. -/
def buttonMetricsOf (dom : Dom) (btn : Elem) : BtnMetrics :=
  let style := btn.computed
  let bgNums := extractNums style.backgroundColor
  let bgB : Q :=
    match bgNums with
    | r :: g :: b :: _ => rgbBrightness r g b
    | _ => 255
  let bgS : Q :=
    match bgNums with
    | r :: g :: b :: _ => rgbSaturation r g b
    | _ => 0
  { element := btn.path,
    text := strTrim (textContentOf dom btn),
    area := qMul btn.width btn.height,
    width := btn.width,
    height := btn.height,
    fontSize := style.fontSize,
    fontWeight := style.fontWeight.getD 400,
    bgBrightness := bgB,
    bgSaturation := bgS,
    hasBackground := qLt q01 bgS || qLt bgB 240,
    padding := qAdd style.paddingTop style.paddingBottom }

/-- Visible interactive controls of a candidate container
(`detector.js` 770–781). -/
def visibleButtonsOf (dom : Dom) (modal : Elem) : List Elem :=
  (querySelectorAllMulti dom modal.path clickableSelectors).filter (fun el =>
    let style := el.computed
    (decide (style.display ≠ "none") && decide (style.visibility ≠ "hidden")) &&
      decide (strTrim (textContentOf dom el) ≠ ""))

/-- The classifier of one candidate container (`detector.js` 818–836):
area ratio with fallback 10 on a zero minimum, font ratio with fallback 2,
or background fill asymmetry. -/
def buttonAsymmetry (metrics : List BtnMetrics) : Bool :=
  let areas := metrics.map (·.area)
  let maxArea := qListMax areas
  let minArea := qListMin areas
  let ratioArea : Q := if qLt 0 minArea then qDiv maxArea minArea else 10
  let fonts := metrics.map (·.fontSize)
  let maxFont := qListMax fonts
  let minFont := qListMin fonts
  let ratioFont : Q := if qLt 0 minFont then qDiv maxFont minFont else 2
  let withBg := metrics.filter (·.hasBackground)
  let withoutBg := metrics.filter (fun b => !b.hasBackground)
  let hasBgAsymmetry := decide (withBg.length > 0) && decide (withoutBg.length > 0)
  qLt q15 ratioArea || qLt q12 ratioFont || hasBgAsymmetry

/-- Candidate containers of the asymmetry detector (`detector.js`
745–765): modal-selector hits plus fixed/absolutely positioned
`div`/`section`/`aside` blocks with at least two button-like descendants,
deduplicated in insertion order. -/
def asymmetricCandidates (dom : Dom) (root : List Nat) : List Elem :=
  let fromSelectors := querySelectorAllMulti dom root modalSelectors
  let positioned :=
    (querySelectorAllMulti dom root [.tag "div", .tag "section", .tag "aside"]).filter
      (fun d =>
        (decide (d.computed.position = "fixed") || decide (d.computed.position = "absolute")) &&
        decide ((querySelectorAllMulti dom d.path
          [.tag "button", .tag "a", .attrEq "role" "button"]).length ≥ 2))
  firstDedup (fromSelectors ++ positioned)

/-- Embedding of `processAsymmetricButtonsDetector` (`detector.js`
726–869): the container, not a button, is reported. -/
def processAsymmetricButtonsDetector (_det : Detector) (dom : Dom) (root : List Nat) :
    List DetMatch :=
  (asymmetricCandidates dom root).flatMap (fun modal =>
    let buttons := visibleButtonsOf dom modal
    if buttons.length < 2 then []
    else
      let metrics := buttons.map (buttonMetricsOf dom)
      if buttonAsymmetry metrics then
        [{ element := modal.path,
           text := String.intercalate " / " (metrics.map (·.text)) }]
      else [])

/-- Embedding of `processCombinedDetector` (`detector.js` 874–936). -/
def processCombinedDetector (det : Detector) (dom : Dom) (root : List Nat) :
    List DetMatch :=
  if (det.visualChecks.map (·.compareWithSiblings)).getD false then
    processVisualHierarchyDetector det dom root
  else if det.siblingAnalysis then
    processAsymmetricButtonsDetector det dom root
  else
    let elements :=
      match det.selectors with
      | some sels => firstDedup (sels.flatMap (fun sel => querySelectorAll dom root sel))
      | Option.none => descendantsOf dom root
    elements.filterMap (fun e =>
      let matchedText :=
        match det.textPatterns with
        | some tps => matchesPatterns (getVisibleText dom e) tps
        | Option.none => true
      let matchedVisual :=
        match det.visualChecks with
        | some vc => !(checkVisualProperties dom e (some vc)).isEmptyDetails
        | Option.none => true
      if matchedText && matchedVisual then
        some { element := e.path, text := getVisibleText dom e }
      else Option.none)

/-! ## Scan orchestration (`scan`, `detector.js` 1037–1110) -/

/-- Dispatch one detector as the `switch` in `scan` does. -/
def runDetector (det : Detector) (elementsToScan : List Elem) (dom : Dom)
    (root : List Nat) : List DetMatch :=
  if det.type = "text" then processTextDetector det elementsToScan dom
  else if det.type = "selector" then processSelectorDetector det dom root
  else if det.type = "combined" then processCombinedDetector det dom root
  else []

/-- Embedding of `scan` (`detector.js` 1037–1110): filter eligible
candidates under the work budget and the persistent processed-elements
set, run every detector of every rule, mark raw matches processed, and
deduplicate.  Returns the detections and the updated processed set. -/
def scan (patterns : List PatternDef) (processedElements : List (List Nat))
    (dom : Dom) (root : List Nat) : List RawResult × List (List Nat) :=
  if patterns.isEmpty then ([], processedElements)
  else
    let allElements := descendantsOf dom root
    let elementsToScan :=
      ((allElements.filter (fun e =>
        !(excludeSelectors.any (matchesSel e)) &&
          !(processedElements.contains e.path))).take maxElementsPerScan)
    let allResults := patterns.flatMap (fun pattern =>
      pattern.detectors.flatMap (fun det =>
        (runDetector det elementsToScan dom root).map
          (fun m => RawResult.mk pattern.id m.element)))
    let processed2 := allResults.foldl
      (fun acc r => if acc.contains r.element then acc else acc ++ [r.element])
      processedElements
    (deduplicateResults allResults, processed2)

/-! ## DOM mutation helpers for the action implementations -/

/-- Update the element at a path in place. -/
def updateElem (dom : Dom) (p : List Nat) (f : Elem → Elem) : Dom :=
  dom.map (fun e => if e.path = p then f e else e)

/-- Set an attribute (`setAttribute`). -/
def attrSet (attrs : List (String × String)) (k v : String) : List (String × String) :=
  if attrs.any (fun pr => pr.1 = k) then
    attrs.map (fun pr => if pr.1 = k then (k, v) else pr)
  else attrs ++ [(k, v)]

/-- Remove an attribute (`removeAttribute`). -/
def attrRemove (attrs : List (String × String)) (k : String) : List (String × String) :=
  attrs.filter (fun pr => pr.1 ≠ k)

/-- Set an inline style property of the element at `p`. -/
def setInline (dom : Dom) (p : List Nat) (k v : String) : Dom :=
  updateElem dom p (fun e => { e with style := styleSet e.style k v })

/-- Set several inline style properties in order (`Object.assign` on
`element.style`). -/
def setInlineMany (dom : Dom) (p : List Nat) (kvs : List (String × String)) : Dom :=
  kvs.foldl (fun d kv => setInline d p kv.1 kv.2) dom

/-- Set an attribute of the element at `p`. -/
def setAttrDom (dom : Dom) (p : List Nat) (k v : String) : Dom :=
  updateElem dom p (fun e => { e with attrs := attrSet e.attrs k v })

/-- Remove an attribute of the element at `p`. -/
def removeAttrDom (dom : Dom) (p : List Nat) (k : String) : Dom :=
  updateElem dom p (fun e => { e with attrs := attrRemove e.attrs k })

/-- Add a class (`classList.add`). -/
def addClassDom (dom : Dom) (p : List Nat) (c : String) : Dom :=
  updateElem dom p (fun e =>
    if e.classes.contains c then e else { e with classes := e.classes ++ [c] })

/-- Remove a class (`classList.remove`). -/
def removeClassDom (dom : Dom) (p : List Nat) (c : String) : Dom :=
  updateElem dom p (fun e => { e with classes := e.classes.filter (· ≠ c) })

/-- Numeric computed value rendered back as a CSS length string, used when
the source assigns a computed value to an inline property. -/
def qToPx (q : Option Q) : String :=
  match q with
  | some v => qToString v ++ "px"
  | Option.none => ""

/-! ## Action records (`ActionImplementations`,
`actions/implementations.js`).

An action implementation mutates the document and returns a record whose
`restore` closure restores the captured state; a `restore` may fail at
the DOM boundary (a JS call can throw), which the model renders as
`none`.  The implementations' own closures always succeed. -/

/-- A stored action record (`{type, element, restore}` plus the executor's
bookkeeping fields). -/
structure ActionRecord where
  type : String
  element : List Nat
  restore : Dom → Option Dom
  actionId : String := ""
  patternId : String := ""
  actionType : String := ""

/-- Embedding of `uncheckCheckbox` (`implementations.js` 63–77). -/
def uncheckCheckbox (p : List Nat) (dom : Dom) : Option ActionRecord × Dom :=
  let element := getElemD dom p
  if element.tag = "INPUT" ∧ attrOf? element "type" = some "checkbox" then
    let originalState := element.checked
    let dom1 := updateElem dom p (fun e => { e with checked := false })
    (some { type := "uncheck", element := p,
            restore := fun d =>
              some (updateElem d p (fun e => { e with checked := originalState })) },
     dom1)
  else (Option.none, dom)

/-- Badge selectors hidden by `neutralizeHierarchy`
(`implementations.js` 117). -/
def badgeSelectorsNeutralize : List Sel :=
  [.classExact "badge", .classExact "ribbon", .classContains "badge",
   .classContains "ribbon", .classContains "recommend", .classContains "featured"]

/-- The inline properties captured by `neutralizeHierarchy`. -/
def neutralizeCapturedKeys : List String :=
  ["transform", "boxShadow", "border", "borderWidth", "borderColor",
   "backgroundColor", "scale", "zIndex"]

/-- Embedding of `neutralizeHierarchy` (`implementations.js` 84–138). -/
def neutralizeHierarchy (p : List Nat) (dom : Dom) : Option ActionRecord × Dom :=
  let element := getElemD dom p
  let originalStyles := neutralizeCapturedKeys.map
    (fun k => (k, styleGet element.style k))
  let dom1 := setInlineMany dom p
    [("transform", "none"), ("boxShadow", "none"), ("scale", "1")]
  let siblings :=
    (match parentElem dom p with
     | some par => childrenOf dom par.path
     | Option.none => []).filter (fun el => el ≠ element)
  let dom2 :=
    match siblings with
    | sibling :: _ =>
      let siblingStyle := sibling.computed
      setInlineMany dom1 p
        [("border", siblingStyle.border),
         ("borderWidth", qToPx siblingStyle.borderWidth),
         ("borderColor", siblingStyle.borderColor)]
    | [] => setInline dom1 p "border" "1px solid #ddd"
  let badges := querySelectorAllMulti dom2 p badgeSelectorsNeutralize
  let badgeVisibility := badges.map (fun b => styleGet b.style "display")
  let dom3 := badges.foldl (fun d b => setInline d b.path "display" "none") dom2
  let dom4 := setAttrDom dom3 p "data-lighton-neutralized" "true"
  (some { type := "neutralize", element := p,
          restore := fun d =>
            let d1 := setInlineMany d p originalStyles
            let d2 := (badges.zip badgeVisibility).foldl
              (fun dd pr => setInline dd pr.1.path "display" pr.2) d1
            some (removeAttrDom d2 p "data-lighton-neutralized") },
   dom4)

/-- Badge selectors hidden by `equalizeVisualHierarchy`
(`implementations.js` 213–217). -/
def badgeSelectorsEqualize : List Sel :=
  [.classExact "badge", .classExact "ribbon", .classExact "tag", .classExact "label",
   .classContains "badge", .classContains "ribbon", .classContains "recommend",
   .classContains "featured", .classContains "popular", .classContains "best"]

/-- The inline properties captured by `equalizeVisualHierarchy`. -/
def equalizeCapturedKeys : List String :=
  ["transform", "boxShadow", "border", "borderWidth", "borderColor", "borderRadius",
   "backgroundColor", "background", "padding", "width", "minWidth", "maxWidth",
   "flex", "scale", "zIndex", "position"]

/-- Embedding of `equalizeVisualHierarchy` (`implementations.js`
146–275): null without a parent; fallback to `neutralizeHierarchy` when
the comparable sibling set is empty; otherwise match the first sibling's
computed styles and hide badge-like and small absolutely positioned
descendants. -/
def equalizeVisualHierarchy (p : List Nat) (dom : Dom) : Option ActionRecord × Dom :=
  match parentElem dom p with
  | Option.none => (Option.none, dom)
  | some parent =>
    let element := getElemD dom p
    let siblings := (childrenOf dom parent.path).filter (fun el =>
      decide (el ≠ element) &&
        !(matchesSelList el [.tag "script", .tag "style", .tag "br"]))
    match siblings with
    | [] => neutralizeHierarchy p dom
    | refSibling :: _ =>
      let originalStyles := equalizeCapturedKeys.map
        (fun k => (k, styleGet element.style k))
      let refStyle := refSibling.computed
      let dom1 := setInlineMany dom p
        [("transform", "none"),
         ("boxShadow", if refStyle.boxShadow = "none" then "none" else refStyle.boxShadow),
         ("border", refStyle.border),
         ("borderWidth", qToPx refStyle.borderWidth),
         ("borderColor", refStyle.borderColor),
         ("borderRadius", refStyle.borderRadius),
         ("scale", "1"),
         ("zIndex", "auto")]
      let dom2 :=
        if refStyle.backgroundColor ≠ "" ∧ refStyle.backgroundColor ≠ "rgba(0, 0, 0, 0)" then
          setInlineMany dom1 p
            [("backgroundColor", refStyle.backgroundColor),
             ("background", refStyle.background)]
        else
          setInlineMany dom1 p
            [("backgroundColor", "#fff"), ("background", "none")]
      let dom3 := setInline dom2 p "padding" refStyle.padding
      let dom4 := setInline dom3 p "flex" (if refStyle.flex ≠ "" then refStyle.flex else "1")
      let badges := querySelectorAllMulti dom4 p badgeSelectorsEqualize
      let badgeOriginalStyles := badges.map (fun b =>
        (b.path, styleGet b.style "display", styleGet b.style "visibility"))
      let dom5 := badges.foldl (fun d b => setInline d b.path "display" "none") dom4
      let absoluteChildren :=
        (querySelectorAllMulti dom5 p
          [.styleContains "position: absolute", .styleContains "position:absolute"]).filter
          (fun child =>
            qLt child.width (qMul element.width q05) && qLt child.height 50)
      let absoluteOriginalStyles := absoluteChildren.map (fun c =>
        (c.path, styleGet c.style "display"))
      let dom6 := absoluteChildren.foldl
        (fun d c => setInline d c.path "display" "none") dom5
      let dom7 := setAttrDom dom6 p "data-lighton-equalized" "true"
      let dom8 := addClassDom dom7 p "lighton-equalized"
      (some { type := "equalize", element := p,
              restore := fun d =>
                let d1 := setInlineMany d p originalStyles
                let d2 := badgeOriginalStyles.foldl
                  (fun dd tr =>
                    setInline (setInline dd tr.1 "display" tr.2.1) tr.1 "visibility" tr.2.2)
                  d1
                let d3 := absoluteOriginalStyles.foldl
                  (fun dd pr => setInline dd pr.1 "display" pr.2) d2
                let d4 := removeAttrDom d3 p "data-lighton-equalized"
                some (removeClassDom d4 p "lighton-equalized") },
       dom8)

/-- Container selectors of `equalizeButtons`' `closest` call
(`implementations.js` 285). -/
def dialogContainerSelectors : List Sel :=
  [.attrEq "role" "dialog", .attrEq "role" "alertdialog", .classExact "modal",
   .classContains "modal", .classContains "popup", .classContains "dialog",
   .tag "form"]

/-- Clickable selectors of `equalizeButtons` (`implementations.js`
290–293). -/
def clickableSelectorsEqualize : List Sel :=
  [.tag "button", .attrEq "role" "button", .tag "a",
   .tagAttrEq "input" "type" "submit", .tagAttrEq "input" "type" "button",
   .classContains "btn", .classContains "button", .attrHas "onclick"]

/-- Interactivity filter of `equalizeButtons` (`implementations.js`
296–304). -/
def isInteractiveControl (el : Elem) : Bool :=
  decide (el.tag = "BUTTON") || decide (el.tag = "A") || decide (el.tag = "INPUT") ||
  decide (attrOf? el "role" = some "button") || (attrOf? el "onclick").isSome ||
  strContains (classAttr el) "btn"

/-- The fixed equalised style block of `equalizeButtons`
(`implementations.js` 332–350), parameterised by the maxima and the
preserved font family. -/
def equalizedStyleBlock (maxW maxH maxF : Q) (fontFamily : String) :
    List (String × String) :=
  [("display", "inline-flex"), ("alignItems", "center"),
   ("justifyContent", "center"),
   ("minWidth", qToString maxW ++ "px"), ("minHeight", qToString maxH ++ "px"),
   ("padding", "12px 24px"), ("margin", "8px"),
   ("fontFamily", fontFamily), ("fontSize", qToString maxF ++ "px"),
   ("fontWeight", "500"), ("lineHeight", "1.4"), ("textAlign", "center"),
   ("textDecoration", "none"), ("cursor", "pointer"), ("borderRadius", "8px"),
   ("boxSizing", "border-box"),
   ("transition", "background-color 0.2s, border-color 0.2s")]

/-- One button's style/color application inside `equalizeButtons`
(`implementations.js` 353–377). -/
def applyEqualizedButton (d : Dom) (maxW maxH maxF : Q) (fontFamily : String)
    (idxBtn : Nat × Elem) : Dom :=
  let (index, btn) := idxBtn
  let d1 := setInlineMany d btn.path (equalizedStyleBlock maxW maxH maxF fontFamily)
  let d2 :=
    if index % 2 = 0 then
      setInlineMany d1 btn.path
        [("backgroundColor", "#6366F1"), ("color", "#FFFFFF"),
         ("border", "2px solid #6366F1")]
    else
      setInlineMany d1 btn.path
        [("backgroundColor", "#0D9488"), ("color", "#FFFFFF"),
         ("border", "2px solid #0D9488")]
  let d3 := if btn.tag = "A" then setInline d2 btn.path "display" "inline-flex" else d2
  let d4 := setAttrDom d3 btn.path "data-lighton-equalized" "true"
  addClassDom d4 btn.path "lighton-equalized-btn"

/-- Embedding of `equalizeButtons` (`implementations.js` 283–418):
equalise the sibling controls of the nearest dialog-like container to
the maximum dimensions and font size, with alternating filled color
schemes, preserving the first control's font family. -/
def equalizeButtons (p : List Nat) (dom : Dom) : Option ActionRecord × Dom :=
  let parentOpt :=
    match closestElem dom p dialogContainerSelectors with
    | some el => some el
    | Option.none => parentElem dom p
  match parentOpt with
  | Option.none => (Option.none, dom)
  | some parent =>
    let clickables := querySelectorAllMulti dom parent.path clickableSelectorsEqualize
    let buttons := clickables.filter (fun el =>
      (decide (el.computed.display ≠ "none") && decide (el.computed.visibility ≠ "hidden")) &&
      decide (strTrim (textContentOf dom el) ≠ "") && isInteractiveControl el)
    if buttons.length < 2 then (Option.none, dom)
    else
      let originalStyles := buttons.map (fun btn =>
        (btn.path, btn.style, btn.classes))
      let fontFamily := (buttons.headD default).computed.fontFamily
      let maxW := qListMax (buttons.map (·.width))
      let maxH := qListMax (buttons.map (·.height))
      let maxF := qListMax (buttons.map (·.computed.fontSize))
      let dom1 := (buttons.enum).foldl
        (fun d pr => applyEqualizedButton d maxW maxH maxF fontFamily pr) dom
      let containerPath :=
        match parentElem dom (buttons.headD default).path with
        | some bc =>
          if buttons.all (fun b => b.path.dropLast = bc.path) then some bc.path
          else Option.none
        | Option.none => Option.none
      let containerOriginal :=
        match containerPath with
        | some cp => [(cp, (getElemD dom cp).style)]
        | Option.none => []
      let dom2 :=
        match containerPath with
        | some cp =>
          setInlineMany dom1 cp
            [("display", "flex"), ("flexWrap", "wrap"), ("gap", "12px"),
             ("justifyContent", "center"), ("alignItems", "center")]
        | Option.none => dom1
      (some { type := "equalize", element := p,
              restore := fun d =>
                let d1 := originalStyles.foldl
                  (fun dd tr =>
                    let dd1 := updateElem dd tr.1
                      (fun e => { e with style := tr.2.1, classes := tr.2.2 })
                    let dd2 := removeAttrDom dd1 tr.1 "data-lighton-equalized"
                    removeClassDom dd2 tr.1 "lighton-equalized-btn") d
                some (containerOriginal.foldl
                  (fun dd pr => updateElem dd pr.1 (fun e => { e with style := pr.2 }))
                  d1) },
       dom2)

/-- Embedding of `emphasizeHidden` (`implementations.js` 425–452). -/
def emphasizeHidden (p : List Nat) (dom : Dom) : Option ActionRecord × Dom :=
  let element := getElemD dom p
  let emphasizeKeys := ["fontSize", "color", "fontWeight", "backgroundColor",
    "padding", "border"]
  let originalStyles := emphasizeKeys.map (fun k => (k, styleGet element.style k))
  let newSize := qMax2 14 (qMul element.computed.fontSize q15)
  let dom1 := setInlineMany dom p
    [("fontSize", qToString newSize ++ "px"), ("color", "#000"),
     ("fontWeight", "600"), ("backgroundColor", "#FFF9C4"),
     ("padding", "8px"), ("border", "2px solid #FFC107")]
  let dom2 := setAttrDom dom1 p "data-lighton-emphasized" "true"
  (some { type := "emphasize", element := p,
          restore := fun d =>
            some (removeAttrDom (setInlineMany d p originalStyles) p
              "data-lighton-emphasized") },
   dom2)

/-- Embedding of `enlargeText` (`implementations.js` 459–475). -/
def enlargeText (p : List Nat) (dom : Dom) : Option ActionRecord × Dom :=
  let element := getElemD dom p
  let originalFontSize := styleGet element.style "fontSize"
  let newSize := qMax2 14 (qMul element.computed.fontSize q15)
  let dom1 := setInline dom p "fontSize" (qToString newSize ++ "px")
  let dom2 := setAttrDom dom1 p "data-lighton-enlarged" "true"
  (some { type := "enlarge", element := p,
          restore := fun d =>
            some (removeAttrDom (setInline d p "fontSize" originalFontSize) p
              "data-lighton-enlarged") },
   dom2)

/-- Embedding of `hideElement` (`implementations.js` 482–495). -/
def hideElement (p : List Nat) (dom : Dom) : Option ActionRecord × Dom :=
  let element := getElemD dom p
  let originalDisplay := styleGet element.style "display"
  let dom1 := setInline dom p "display" "none"
  let dom2 := setAttrDom dom1 p "data-lighton-hidden" "true"
  (some { type := "hide", element := p,
          restore := fun d =>
            some (removeAttrDom (setInline d p "display" originalDisplay) p
              "data-lighton-hidden") },
   dom2)

/-! ## Action registry (`ActionRegistry`, `patterns/sneaking.js`
222–445): the static availability table the executor validates against. -/

/-- Available actions and primary action per rule. -/
structure ActionConfig where
  available : List String
  primary : Option String
deriving DecidableEq, Repr

/-- Embedding of `actionConfig` (`sneaking.js` 243–307). -/
def actionConfig : List (String × ActionConfig) :=
  [("asymmetric-buttons", { available := [], primary := Option.none }),
   ("preselected-checkbox", { available := ["uncheck"], primary := some "uncheck" }),
   ("hidden-cancel", { available := ["emphasize"], primary := some "emphasize" }),
   ("visual-hierarchy-manipulation",
     { available := ["equalize", "neutralize"], primary := some "equalize" }),
   ("ambiguous-button", { available := ["emphasize"], primary := some "emphasize" }),
   ("small-print", { available := ["enlarge"], primary := some "enlarge" }),
   ("hidden-cost", { available := ["emphasize"], primary := some "emphasize" }),
   ("auto-add-cart", { available := ["uncheck"], primary := some "uncheck" }),
   ("free-trial-trap", { available := ["emphasize"], primary := some "emphasize" }),
   ("emotional-manipulation", { available := [], primary := Option.none })]

/-- Embedding of `getAvailableActions` (`sneaking.js` 333–336); an
unknown rule gets the default empty availability. -/
def getAvailableActions (patternId : String) : List String :=
  match actionConfig.find? (fun pr => pr.1 = patternId) with
  | some pr => pr.2.available
  | Option.none => []

/-! ## Action executor and preview state machine
(`actions/executor.js`) -/

/-- The executor's mutable module state: the applied-actions table (a JS
`Map` in insertion order) and the preview slot. -/
structure ExecState where
  appliedActions : List (String × ActionRecord)
  previewingActionId : Option String

/-- The empty executor state. -/
def ExecState.initial : ExecState := ⟨[], Option.none⟩

/-- `Map.get`. -/
def tableGet (table : List (String × ActionRecord)) (k : String) :
    Option ActionRecord :=
  (table.find? (fun pr => pr.1 = k)).map Prod.snd

/-- `Map.set`: overwrite in place or append. -/
def tableSet (table : List (String × ActionRecord)) (k : String) (v : ActionRecord) :
    List (String × ActionRecord) :=
  if table.any (fun pr => pr.1 = k) then
    table.map (fun pr => if pr.1 = k then (k, v) else pr)
  else table ++ [(k, v)]

/-- `Map.delete`. -/
def tableDelete (table : List (String × ActionRecord)) (k : String) :
    List (String × ActionRecord) :=
  table.filter (fun pr => pr.1 ≠ k)

/-- Implementation dispatch shared by `executeAction` (51–79) and
`endPreview` (142–161); an unknown action type does nothing and yields no
record.  A `none` record comes with the untouched document. -/
def runImpl (actionType : String) (p : List Nat) (dom : Dom) :
    Option ActionRecord × Dom :=
  match actionType with
  | "uncheck" => uncheckCheckbox p dom
  | "equalize" => equalizeVisualHierarchy p dom
  | "neutralize" => neutralizeHierarchy p dom
  | "emphasize" => emphasizeHidden p dom
  | "enlarge" => enlargeText p dom
  | "hide" => hideElement p dom
  | _ => (Option.none, dom)

/-- Embedding of `executeAction` (`executor.js` 35–94): validate the
action kind against the registry (with the universal `"hide"` escape
hatch), dispatch, and on success store the record under the fresh id and
stamp the element.  The fresh id stands for the generated
`patternId-Date.now()-random` string. -/
def executeAction (patternId : String) (element : Option (List Nat))
    (actionType : String) (freshId : String) (st : ExecState) (dom : Dom) :
    Option ActionRecord × ExecState × Dom :=
  match element with
  | Option.none => (Option.none, st, dom)
  | some p =>
    if ¬ (getAvailableActions patternId).contains actionType ∧ actionType ≠ "hide" then
      (Option.none, st, dom)
    else
      match runImpl actionType p dom with
      | (Option.none, dom1) => (Option.none, st, dom1)
      | (some r, dom1) =>
        let stored := { r with actionId := freshId, patternId := patternId,
                               actionType := actionType }
        let dom2 := setAttrDom dom1 p "data-lighton-action-id" freshId
        (some stored,
         { st with appliedActions := tableSet st.appliedActions freshId stored },
         dom2)

/-- Embedding of `endPreview` (`executor.js` 125–174): idle is a no-op;
otherwise leave the preview state, re-execute the recorded
`(patternId, element, actionType)`, and overwrite the stored record with
the regenerated one when re-execution yields a result. -/
def endPreview (st : ExecState) (dom : Dom) : Bool × ExecState × Dom :=
  match st.previewingActionId with
  | Option.none => (false, st, dom)
  | some pid =>
    match tableGet st.appliedActions pid with
    | Option.none => (false, { st with previewingActionId := Option.none }, dom)
    | some action =>
      let st1 := { st with previewingActionId := Option.none }
      if action.patternId ≠ "" ∧ action.actionType ≠ "" then
        match runImpl action.actionType action.element dom with
        | (some newResult, dom1) =>
          let stored := { newResult with
            actionId := action.actionId
            patternId := action.patternId
            actionType := action.actionType }
          (true,
           { st1 with appliedActions := tableSet st1.appliedActions action.actionId stored },
           dom1)
        | (Option.none, dom1) => (true, st1, dom1)
      else (false, st1, dom)

/-- Embedding of `previewOriginal` (`executor.js` 102–119): a no-op
success on the active id; otherwise end any other preview, then invoke
the stored record's restore without discarding it.  `none` models the
exception a throwing restore would propagate. -/
def previewOriginal (actionId : String) (st : ExecState) (dom : Dom) :
    Option (Bool × ExecState × Dom) :=
  if st.previewingActionId = some actionId then some (true, st, dom)
  else
    let after :=
      match st.previewingActionId with
      | some _ => (endPreview st dom).2
      | Option.none => (st, dom)
    match tableGet after.1.appliedActions actionId with
    | some action =>
      match action.restore after.2 with
      | some dom1 =>
        some (true, { after.1 with previewingActionId := some actionId }, dom1)
      | Option.none => Option.none
    | Option.none => some (false, after.1, after.2)

/-- Embedding of `undoAction` (`executor.js` 201–209): restore and delete
a found record, report whether one was found.  `none` models the
exception a throwing restore would propagate. -/
def undoAction (actionId : String) (st : ExecState) (dom : Dom) :
    Option (Bool × ExecState × Dom) :=
  match tableGet st.appliedActions actionId with
  | some action =>
    match action.restore dom with
    | some dom1 =>
      some (true, { st with appliedActions := tableDelete st.appliedActions actionId },
            dom1)
    | Option.none => Option.none
  | Option.none => some (false, st, dom)

/-- The `forEach` of `clearAll`: run the restores in table order; a
throwing restore propagates with the document as mutated so far. -/
def clearAllGo (records : List (String × ActionRecord)) (dom : Dom) :
    Except Dom Dom :=
  match records with
  | [] => .ok dom
  | (_, action) :: rest =>
    match action.restore dom with
    | some dom1 => clearAllGo rest dom1
    | Option.none => .error dom

/-- Embedding of `clearAll` (`executor.js` 243–250): invoke every
record's restore, then clear the table.  There is no exception handling
in the source: a throwing restore aborts the iteration before
`appliedActions.clear()` runs, leaving the table untouched. -/
def clearAll (st : ExecState) (dom : Dom) : Except (ExecState × Dom) (ExecState × Dom) :=
  match clearAllGo st.appliedActions dom with
  | .ok dom1 => .ok ({ st with appliedActions := [] }, dom1)
  | .error dom1 => .error (st, dom1)

/-- Embedding of `getAppliedCount` (`executor.js` 256–258). -/
def getAppliedCount (st : ExecState) : Nat := st.appliedActions.length

/-! ## Concrete documents and states used by witnesses and
counterexamples -/

/-- A minimal document: the body and one element. -/
def sampleDom : Dom := [{ path := [] }, { path := [0] }]

/-- Fallback record for projections out of `Option ActionRecord`. -/
def noRecord : ActionRecord :=
  { type := "", element := [], restore := fun _ => Option.none }

/-- Execution of the universal `hide` action on the sample document
through the executor. -/
def execSample : Option ActionRecord × ExecState × Dom :=
  executeAction "hidden-cost" (some [0]) "hide" "a1" ExecState.initial sampleDom

/-- State after the sample execution: one applied record under `"a1"`. -/
def execSampleState : ExecState := execSample.2.1

/-- Document after the sample execution. -/
def execSampleDom : Dom := execSample.2.2

/-- The record stored by the sample execution. -/
def execSampleRecord : ActionRecord := execSample.1.getD noRecord

/-- Document after the sample record's restore. -/
def execSampleRestored : Dom := (execSampleRecord.restore execSampleDom).getD []

/-- Sample state with the stored action being previewed. -/
def previewingSampleState : ExecState :=
  { execSampleState with previewingActionId := some "a1" }

/-- Sample state previewing a different id than `"a1"`. -/
def otherPreviewState : ExecState :=
  { execSampleState with previewingActionId := some "b9" }

/-- A record whose restore throws (the DOM boundary can throw): used to
exercise `clearAll`'s missing exception handling. -/
def throwingRecord : ActionRecord :=
  { type := "hide", element := [0], restore := fun _ => Option.none,
    actionId := "t1", patternId := "hidden-cost", actionType := "hide" }

/-- A three-element document for the `clearAll` scenario. -/
def clearDom : Dom := [{ path := [] }, { path := [0] }, { path := [1] }]

/-- Hide applied to the second element of the `clearAll` scenario. -/
def hiddenPair : Option ActionRecord × Dom := hideElement [1] clearDom

/-- The healthy second record of the `clearAll` scenario. -/
def okRecord : ActionRecord := hiddenPair.1.getD noRecord

/-- `clearAll` scenario state: a throwing record followed by a healthy
one. -/
def clearState : ExecState :=
  ⟨[("t1", throwingRecord), ("t2", okRecord)], Option.none⟩

/-- The combined detector of the `asymmetric-buttons` rule
(`interface.js` 140–164): `siblingAnalysis` dispatch. -/
def asymDetector : Detector :=
  { type := "combined", siblingAnalysis := true,
    visualChecks := some { compareSiblingSize := true, compareSiblingColor := true,
                           checkPrimarySecondaryPattern := true } }

/-- The spec scenario document: a dialog with one large filled
"Continue" button and one small plain-text "No thanks" link. -/
def dialogDom : Dom :=
  [{ path := [] },
   { path := [0], tag := "DIV", attrs := [("role", "dialog")] },
   { path := [0, 0], tag := "BUTTON", ownText := "Continue",
     computed := { fontSize := 18, backgroundColor := "rgb(99, 102, 241)" },
     width := 200, height := 48 },
   { path := [0, 1], tag := "A", ownText := "No thanks",
     computed := { fontSize := 12 }, width := 60, height := 16 }]

/-- Direct invocation of the `equalizeButtons` implementation on the
detected dialog container. -/
def eqBtnRun : Option ActionRecord × Dom := equalizeButtons [0] dialogDom

/-- A dialog with two equal zero-area buttons of equal font and equal
background. -/
def zeroBtnDom : Dom :=
  [{ path := [] },
   { path := [0], tag := "DIV", attrs := [("role", "dialog")] },
   { path := [0, 0], tag := "BUTTON", ownText := "Yes",
     computed := { fontSize := 16, backgroundColor := "rgb(255, 255, 255)" },
     width := 0, height := 0 },
   { path := [0, 1], tag := "BUTTON", ownText := "No",
     computed := { fontSize := 16, backgroundColor := "rgb(255, 255, 255)" },
     width := 0, height := 0 }]

/-- Re-execution of the sample record's action during `endPreview`. -/
def reExecSample : Option ActionRecord × Dom := runImpl "hide" [0] execSampleDom

/-- The regenerated record of the sample re-execution. -/
def reExecRecord : ActionRecord := reExecSample.1.getD noRecord

/-- A one-rule catalog with a single text detector. -/
def textPatternRule : PatternDef :=
  { id := "p1",
    detectors := [{ type := "text", patterns := [.lit "cancel"],
                    contexts := some [.star] }] }

/-- A document with one element whose text matches the text detector. -/
def textDom : Dom := [{ path := [] }, { path := [0], ownText := "cancel please" }]

/-- A one-rule catalog with a single selector detector (no text
detectors). -/
def selectorPatternRule : PatternDef :=
  { id := "s1",
    detectors := [{ type := "selector",
                    selectors := some [.classContains "fee"] }] }

/-- A document with one element matched by the selector detector. -/
def selDom : Dom := [{ path := [] }, { path := [0], classes := ["fee-note"] }]

/-- Metrics of the large filled dialog button. -/
def bmContinue : BtnMetrics := buttonMetricsOf dialogDom (getElemD dialogDom [0, 0])

/-- Metrics of the small plain dialog link. -/
def bmNoThanks : BtnMetrics := buttonMetricsOf dialogDom (getElemD dialogDom [0, 1])

/-- The small control blown up to three times its pixel area. -/
def bm3x : BtnMetrics := { bmNoThanks with area := qMul 3 bmNoThanks.area }

/-- Metrics of a zero-area button. -/
def bmZero : BtnMetrics := buttonMetricsOf zeroBtnDom (getElemD zeroBtnDom [0, 0])

/-- Specification-side prominence score, transcribing the claim's list
of weighted signals over the same document model (with the two
code-forced amendments: the size signal is strict and applies only to a
positive sibling mean): rendered area strictly above 1.15× the positive
sibling mean area +1, shadow +1, scale transform above 1.0 +1,
background saturation exceeding the sibling mean by more than 0.2 +1,
border thicker than the sibling mean by more than 1 unit +1,
badge-vocabulary text +2, badge-like descendant +2 only if the text
signal did not count, positive stacking order +1. -/
def prominenceSpecScore (dom : Dom) (e : Elem) (siblings : List Elem) : Nat :=
  let style := e.computed
  let elementArea := qMul e.width e.height
  let siblingAreas := siblings.map (fun sib => qMul sib.width sib.height)
  let meanArea :=
    if siblingAreas.length > 0 then qDiv (qSum siblingAreas) (natToQ siblingAreas.length)
    else elementArea
  let sizeSignal : Nat :=
    if qLt 0 meanArea && qLt (qMul q115 meanArea) elementArea then 1 else 0
  let shadowSignal : Nat :=
    if style.boxShadow ≠ "" ∧ style.boxShadow ≠ "none" then 1 else 0
  let scaleSignal : Nat :=
    match style.transform with
    | .scale v => if qLt 1 v then 1 else 0
    | _ => 0
  let saturationSignal : Nat :=
    match extractNums style.backgroundColor with
    | r :: g :: b :: _ =>
      let saturation := rgbSaturation r g b
      let sibSats := siblings.filterMap (fun sib =>
        match extractNums sib.computed.backgroundColor with
        | sr :: sg :: sb :: _ => some (rgbSaturation sr sg sb)
        | _ => Option.none)
      let avgSibSaturation :=
        if sibSats.length > 0 then qDiv (qSum sibSats) (natToQ sibSats.length) else 0
      if qLt (qAdd avgSibSaturation q02) saturation then 1 else 0
    | _ => 0
  let borderSignal : Nat :=
    let borderW := style.borderWidth.getD 0
    let sibBorders := siblings.map (fun sib => sib.computed.borderWidth.getD 0)
    let avgSibBorder :=
      if sibBorders.length > 0 then qDiv (qSum sibBorders) (natToQ sibBorders.length)
      else 0
    if qLt (qAdd avgSibBorder 1) borderW then 1 else 0
  let textBadge := badgeTextPatterns.any (patTest (getVisibleText dom e))
  let textSignal : Nat := if textBadge then 2 else 0
  let childSignal : Nat :=
    if (badgeSelectorsProminence.any
        (fun sel => (querySelectorAll dom e.path sel) ≠ [])) ∧ ¬ textBadge then 2
    else 0
  let zSignal : Nat := if style.zIndex.getD 0 > 0 then 1 else 0
  sizeSignal + shadowSignal + scaleSignal + saturationSignal + borderSignal +
    textSignal + childSignal + zSignal

/-- The combined detector of the `visual-hierarchy-manipulation` rule
(`interface.js` 225–245). -/
def hierDetector : Detector :=
  { type := "combined",
    visualChecks := some { compareWithSiblings := true },
    contextTextPatterns := some
      [.lit "요금제", .lit "구독", .lit "플랜", .lit "옵션", .lit "패키지",
       .lit "등급", .lit "단계", .seqSp "가격" "비교",
       .lit "plan", .lit "subscription", .lit "tier", .lit "package",
       .lit "option", .lit "pricing", .lit "compare",
       .lit "월", .lit "개월", .lit "연", .lit "year", .lit "month"],
    containerSelectors := some
      [.classContains "pricing", .classContains "plan", .classContains "subscription",
       .classContains "option", .classContains "tier", .classContains "package",
       .classContains "card"],
    thresholds := some { prominenceScore := some 3 } }

/-- The spec scenario: three sibling plan cards, one with badge text
"Most Popular" and a 20% larger area. -/
def scenDom : Dom :=
  [{ path := [] },
   { path := [0], classes := ["pricing-table"] },
   { path := [0, 0], ownText := "Basic Plan", width := 100, height := 100 },
   { path := [0, 1], ownText := "Pro Plan", width := 100, height := 100 },
   { path := [0, 2], ownText := "Most Popular", width := 120, height := 100 }]

/-- The boundary document: the emphasized card's area is exactly 1.15×
the sibling mean, plus badge text. -/
def boundaryDom : Dom :=
  [{ path := [] },
   { path := [0], classes := ["pricing-table"] },
   { path := [0, 0], ownText := "Plan A", width := 10, height := 10 },
   { path := [0, 1], ownText := "Plan B", width := 10, height := 10 },
   { path := [0, 2], ownText := "BEST", width := 23, height := 5 }]

/-- Claim-side prominence score without the strictness amendment: the
area signal fires at "area ≥ 1.15× the sibling mean", as the claim
words it. -/
def prominenceClaimSizeSignal (e : Elem) (siblings : List Elem) : Nat :=
  let elementArea := qMul e.width e.height
  let siblingAreas := siblings.map (fun sib => qMul sib.width sib.height)
  let meanArea :=
    if siblingAreas.length > 0 then qDiv (qSum siblingAreas) (natToQ siblingAreas.length)
    else elementArea
  if qLe (qMul q115 meanArea) elementArea then 1 else 0

/-! ### Theorems -/

theorem mem_dedupByElementAux {r : RawResult} :
    ∀ {l : List RawResult} {seen : List (List Nat)},
      (∀ a ∈ l, ∀ b ∈ l, a.element = b.element → a = b) →
      (r ∈ dedupByElementAux seen l ↔ r ∈ l ∧ r.element ∉ seen) := by
  intro l
  induction l with
  | nil => intro seen _; simp [dedupByElementAux]
  | cons x xs ih =>
    intro seen huni
    have huni' : ∀ a ∈ xs, ∀ b ∈ xs, a.element = b.element → a = b := by
      intro a ha b hb
      exact huni a (.tail _ ha) b (.tail _ hb)
    by_cases hx : x.element ∈ seen
    · rw [dedupByElementAux, if_pos hx, ih huni']
      constructor
      · rintro ⟨hm, hs⟩; exact ⟨.tail _ hm, hs⟩
      · rintro ⟨hm, hs⟩
        rcases List.mem_cons.mp hm with rfl | hm'
        · exact absurd hx hs
        · exact ⟨hm', hs⟩
    · rw [dedupByElementAux, if_neg hx]
      constructor
      · intro hm
        rcases List.mem_cons.mp hm with rfl | hm'
        · exact ⟨.head _, hx⟩
        · rcases (ih huni').mp hm' with ⟨hmem, hseen⟩
          refine ⟨.tail _ hmem, fun hc => hseen (.tail _ hc)⟩
      · rintro ⟨hm, hs⟩
        rcases List.mem_cons.mp hm with rfl | hm'
        · exact .head _
        · by_cases he : r.element = x.element
          · have : r = x := huni r (.tail _ hm') x (.head _) he
            exact this ▸ .head _
          · refine .tail _ ((ih huni').mpr ⟨hm', ?_⟩)
            intro hc
            rcases List.mem_cons.mp hc with h | h
            · exact he h
            · exact hs h

theorem elem_not_seen_dedupByElementAux {r : RawResult} :
    ∀ {l : List RawResult} {seen : List (List Nat)},
      r ∈ dedupByElementAux seen l → r.element ∉ seen := by
  intro l
  induction l with
  | nil => intro seen h; simp [dedupByElementAux] at h
  | cons x xs ih =>
    intro seen h
    by_cases hx : x.element ∈ seen
    · rw [dedupByElementAux, if_pos hx] at h
      exact ih h
    · rw [dedupByElementAux, if_neg hx] at h
      rcases List.mem_cons.mp h with rfl | h'
      · exact hx
      · intro hc
        exact ih h' (.tail _ hc)

theorem pairwise_dedupByElementAux :
    ∀ {l : List RawResult} {seen : List (List Nat)},
      (dedupByElementAux seen l).Pairwise (fun a b => a.element ≠ b.element) := by
  intro l
  induction l with
  | nil => intro seen; simp [dedupByElementAux]
  | cons x xs ih =>
    intro seen
    by_cases hx : x.element ∈ seen
    · rw [dedupByElementAux, if_pos hx]; exact ih
    · rw [dedupByElementAux, if_neg hx]
      refine List.pairwise_cons.mpr ⟨?_, ih⟩
      intro b hb hc
      exact elem_not_seen_dedupByElementAux hb (hc ▸ .head _)

theorem hasDescendantMatch_iff {uniq : List RawResult} {r : RawResult} :
    hasDescendantMatch uniq r = true ↔
      ∃ o ∈ uniq, r.element ≠ o.element ∧ r.element <+: o.element := by
  unfold hasDescendantMatch domContains
  rw [List.any_eq_true]
  constructor
  · rintro ⟨o, ho, hcond⟩
    simp only [Bool.and_eq_true, decide_eq_true_eq] at hcond
    exact ⟨o, ho, hcond.2.2, List.isPrefixOf_iff_prefix.mp hcond.2.1⟩
  · rintro ⟨o, ho, hne, hpre⟩
    refine ⟨o, ho, ?_⟩
    simp only [Bool.and_eq_true, decide_eq_true_eq]
    exact ⟨fun h => hne (h ▸ rfl), List.isPrefixOf_iff_prefix.mpr hpre, hne⟩

theorem mem_dedupGroup {g : List RawResult} {r : RawResult}
    (huni : ∀ a ∈ g, ∀ b ∈ g, a.element = b.element → a = b) :
    r ∈ dedupGroup g ↔
      r ∈ g ∧ ¬ ∃ o ∈ g, r.element ≠ o.element ∧ r.element <+: o.element := by
  unfold dedupGroup
  have hmemU : ∀ {x : RawResult}, x ∈ dedupByElementAux [] g ↔ x ∈ g := by
    intro x
    rw [mem_dedupByElementAux huni]
    simp
  have hfilter :
      r ∈ (dedupByElementAux [] g).filter
          (fun s => ! hasDescendantMatch (dedupByElementAux [] g) s) ↔
        r ∈ g ∧ ¬ ∃ o ∈ g, r.element ≠ o.element ∧ r.element <+: o.element := by
    rw [List.mem_filter]
    constructor
    · rintro ⟨hm, hb⟩
      refine ⟨hmemU.mp hm, fun hex => ?_⟩
      rcases hex with ⟨o, ho, hne, hpre⟩
      have : hasDescendantMatch (dedupByElementAux [] g) r = true :=
        hasDescendantMatch_iff.mpr ⟨o, hmemU.mpr ho, hne, hpre⟩
      simp [this] at hb
    · rintro ⟨hm, hno⟩
      refine ⟨hmemU.mpr hm, ?_⟩
      by_cases hd : hasDescendantMatch (dedupByElementAux [] g) r = true
      · rcases hasDescendantMatch_iff.mp hd with ⟨o, ho, hne, hpre⟩
        exact absurd ⟨o, hmemU.mp ho, hne, hpre⟩ hno
      · simp [hd]
  by_cases hlen : (dedupByElementAux [] g).length = 1
  · rw [if_pos hlen]
    rcases List.length_eq_one.mp hlen with ⟨u, hu⟩
    have hfu : (dedupByElementAux [] g).filter
        (fun s => ! hasDescendantMatch (dedupByElementAux [] g) s) =
        dedupByElementAux [] g := by
      rw [hu]
      have : hasDescendantMatch [u] u = false := by
        simp [hasDescendantMatch]
      simp [List.filter, this]
    rw [← hfu]
    exact hfilter
  · rw [if_neg hlen]
    exact hfilter

theorem mem_deduplicateResults {results : List RawResult} {r : RawResult} :
    r ∈ deduplicateResults results ↔ Survives results r := by
  unfold deduplicateResults Survives
  rw [List.mem_flatMap]
  have hguni : ∀ pid, ∀ a ∈ results.filter (fun x => x.patternId = pid),
      ∀ b ∈ results.filter (fun x => x.patternId = pid),
      a.element = b.element → a = b := by
    intro pid a ha b hb he
    have hap : a.patternId = pid := by
      simpa using (List.mem_filter.mp ha).2
    have hbp : b.patternId = pid := by
      simpa using (List.mem_filter.mp hb).2
    cases a; cases b
    simp_all
  constructor
  · rintro ⟨pid, hpid, hr⟩
    rcases (mem_dedupGroup (hguni pid)).mp hr with ⟨hrg, hno⟩
    have hrmem : r ∈ results := (List.mem_filter.mp hrg).1
    have hrp : r.patternId = pid := by
      simpa using (List.mem_filter.mp hrg).2
    refine ⟨hrmem, fun hex => ?_⟩
    rcases hex with ⟨o, ho, hop, hne, hpre⟩
    refine hno ⟨o, ?_, hne, hpre⟩
    exact List.mem_filter.mpr ⟨ho, by simp [hop, hrp]⟩
  · rintro ⟨hmem, hno⟩
    refine ⟨r.patternId, ?_, ?_⟩
    · exact mem_firstDedup.mpr (List.mem_map.mpr ⟨r, hmem, rfl⟩)
    · refine (mem_dedupGroup (hguni r.patternId)).mpr
        ⟨List.mem_filter.mpr ⟨hmem, by simp⟩, fun hex => ?_⟩
      rcases hex with ⟨o, ho, hne, hpre⟩
      have hoin : o ∈ results := (List.mem_filter.mp ho).1
      have hop : o.patternId = r.patternId := by
        simpa using (List.mem_filter.mp ho).2
      exact hno ⟨o, hoin, hop, hne, hpre⟩

theorem nodup_deduplicateResults (results : List RawResult) :
    (deduplicateResults results).Nodup := by
  unfold deduplicateResults
  rw [List.nodup_flatMap]
  constructor
  · intro pid _
    have hpair : (dedupGroup (results.filter (fun x => x.patternId = pid))).Pairwise
        (fun a b => a.element ≠ b.element) := by
      unfold dedupGroup
      by_cases hlen :
          (dedupByElementAux [] (results.filter (fun x => x.patternId = pid))).length = 1
      · rw [if_pos hlen]; exact pairwise_dedupByElementAux
      · rw [if_neg hlen]; exact pairwise_dedupByElementAux.filter _
    exact hpair.imp (fun h => fun hc => h (hc ▸ rfl))
  · have : (firstDedup (results.map (·.patternId))).Pairwise (· ≠ ·) :=
      nodup_firstDedup _
    refine this.imp ?_
    intro a b hab
    intro x hxa hxb
    have hga : x.patternId = a := by
      have := (mem_dedupGroup (r := x) ?_).mp hxa
      · simpa using (List.mem_filter.mp this.1).2
      · intro u hu v hv he
        have hup : u.patternId = a := by simpa using (List.mem_filter.mp hu).2
        have hvp : v.patternId = a := by simpa using (List.mem_filter.mp hv).2
        cases u; cases v; simp_all
    have hgb : x.patternId = b := by
      have := (mem_dedupGroup (r := x) ?_).mp hxb
      · simpa using (List.mem_filter.mp this.1).2
      · intro u hu v hv he
        have hup : u.patternId = b := by simpa using (List.mem_filter.mp hu).2
        have hvp : v.patternId = b := by simpa using (List.mem_filter.mp hv).2
        cases u; cases v; simp_all
    exact hab (hga ▸ hgb)

/-- C1: for every input list of raw matches, the deduplicated output has
no repeated entry, no two surviving entries of the same rule share a node
or stand in strict containment, and the surviving set is invariant under
permutation of the input list. -/
theorem deduplicateResults_dedups_and_confluent (l₁ l₂ : List RawResult)
    (hperm : l₁.Perm l₂) :
    (deduplicateResults l₁).Nodup ∧
    (∀ a ∈ deduplicateResults l₁, ∀ b ∈ deduplicateResults l₁,
      a.patternId = b.patternId → a ≠ b →
        a.element ≠ b.element ∧ ¬ a.element <+: b.element) ∧
    (∀ r, r ∈ deduplicateResults l₁ ↔ r ∈ deduplicateResults l₂) := by
  refine ⟨nodup_deduplicateResults l₁, ?_, ?_⟩
  · intro a ha b hb hpid hne
    have hsa := mem_deduplicateResults.mp ha
    have hsb := mem_deduplicateResults.mp hb
    have helem : a.element ≠ b.element := by
      intro he
      apply hne
      cases a; cases b; simp_all
    refine ⟨helem, fun hpre => ?_⟩
    exact hsa.2 ⟨b, hsb.1, hpid.symm, helem, hpre⟩
  · intro r
    rw [mem_deduplicateResults, mem_deduplicateResults]
    unfold Survives
    constructor
    · rintro ⟨hm, hn⟩
      exact ⟨hperm.mem_iff.mp hm, fun ⟨o, ho, hrest⟩ =>
        hn ⟨o, hperm.mem_iff.mpr ho, hrest⟩⟩
    · rintro ⟨hm, hn⟩
      exact ⟨hperm.mem_iff.mpr hm, fun ⟨o, ho, hrest⟩ =>
        hn ⟨o, hperm.mem_iff.mp ho, hrest⟩⟩

/-- Witness for C1 at a concrete permuted pair of inputs: two matches for
rule "r" at an ancestor and its descendant, listed in both orders; only
the descendant survives either way. -/
theorem deduplicateResults_dedups_and_confluent_witness :
    (List.Perm [RawResult.mk "r" [0], RawResult.mk "r" [0, 1]]
        [RawResult.mk "r" [0, 1], RawResult.mk "r" [0]]) ∧
    ((deduplicateResults [RawResult.mk "r" [0], RawResult.mk "r" [0, 1]]).Nodup ∧
    (∀ a ∈ deduplicateResults [RawResult.mk "r" [0], RawResult.mk "r" [0, 1]],
      ∀ b ∈ deduplicateResults [RawResult.mk "r" [0], RawResult.mk "r" [0, 1]],
      a.patternId = b.patternId → a ≠ b →
        a.element ≠ b.element ∧ ¬ a.element <+: b.element) ∧
    (∀ r, r ∈ deduplicateResults [RawResult.mk "r" [0], RawResult.mk "r" [0, 1]] ↔
      r ∈ deduplicateResults [RawResult.mk "r" [0, 1], RawResult.mk "r" [0]])) :=
  ⟨by decide,
   deduplicateResults_dedups_and_confluent
     [RawResult.mk "r" [0], RawResult.mk "r" [0, 1]]
     [RawResult.mk "r" [0, 1], RawResult.mk "r" [0]] (by decide)⟩

theorem tableGet_tableSet (t : List (String × ActionRecord)) (k : String)
    (v : ActionRecord) : tableGet (tableSet t k v) k = some v := by
  unfold tableSet
  by_cases h : t.any (fun pr => pr.1 = k)
  · rw [if_pos h]
    induction t with
    | nil => simp at h
    | cons x xs ih =>
      by_cases hx : x.1 = k
      · simp [tableGet, hx]
      · have hxs : xs.any (fun pr => pr.1 = k) := by
          rcases List.any_eq_true.mp h with ⟨pr, hpr, hk⟩
          rcases List.mem_cons.mp hpr with rfl | hm
          · simp [hx] at hk
          · exact List.any_eq_true.mpr ⟨pr, hm, hk⟩
        have := ih hxs
        simpa [tableGet, hx] using this
  · rw [if_neg h]
    induction t with
    | nil => simp [tableGet]
    | cons x xs ih =>
      have hx : ¬ x.1 = k := by
        intro hk
        exact h (List.any_eq_true.mpr ⟨x, .head _, by simpa using hk⟩)
      have hxs : ¬ xs.any (fun pr => pr.1 = k) := by
        intro hk
        rcases List.any_eq_true.mp hk with ⟨pr, hm, hpk⟩
        exact h (List.any_eq_true.mpr ⟨pr, .tail _ hm, hpk⟩)
      have := ih hxs
      simpa [tableGet, hx] using this

theorem tableSet_append_of_fresh (t : List (String × ActionRecord)) (k : String)
    (v : ActionRecord) (h : ¬ t.any (fun pr => pr.1 = k)) :
    tableSet t k v = t ++ [(k, v)] := by
  unfold tableSet
  rw [if_neg (by simpa using h)]

/-- C4: undo invokes the found record's revert, removes the record, and
returns true; an unknown id is a pure no-op returning false with no
exception. -/
theorem undoAction_semantics (actionId : String) (st : ExecState) (dom : Dom) :
    (∀ a, tableGet st.appliedActions actionId = some a →
      ∀ dom1, a.restore dom = some dom1 →
        undoAction actionId st dom =
          some (true,
            { st with appliedActions := tableDelete st.appliedActions actionId },
            dom1)) ∧
    (tableGet st.appliedActions actionId = Option.none →
      undoAction actionId st dom = some (false, st, dom)) := by
  constructor
  · intro a ha dom1 hr
    simp [undoAction, ha, hr]
  · intro h
    simp [undoAction, h]

/-- Witness for C4 at a concrete state: a stored hide action is undone
(revert runs, record removed, true); an unknown id leaves everything
unchanged and returns false. -/
theorem undoAction_semantics_witness :
    tableGet execSampleState.appliedActions "a1" = some execSampleRecord ∧
    execSampleRecord.restore execSampleDom = some execSampleRestored ∧
    undoAction "a1" execSampleState execSampleDom =
      some (true,
        { execSampleState with
            appliedActions := tableDelete execSampleState.appliedActions "a1" },
        execSampleRestored) ∧
    tableGet execSampleState.appliedActions "zz" = Option.none ∧
    undoAction "zz" execSampleState execSampleDom = some (false, execSampleState, execSampleDom) :=
  ⟨rfl, rfl,
   (undoAction_semantics "a1" execSampleState execSampleDom).1 execSampleRecord rfl
     execSampleRestored rfl,
   rfl,
   (undoAction_semantics "zz" execSampleState execSampleDom).2 rfl⟩

/-- C8: execution returns null and mutates nothing for an absent element
or an unregistered action kind, except that "hide" is always permitted;
a successful execution stores its record in the table under the fresh
action id. -/
theorem executeAction_validation (patternId actionType freshId : String)
    (st : ExecState) (dom : Dom) (p : List Nat) :
    (executeAction patternId Option.none actionType freshId st dom =
      (Option.none, st, dom)) ∧
    (¬ (getAvailableActions patternId).contains actionType → actionType ≠ "hide" →
      executeAction patternId (some p) actionType freshId st dom =
        (Option.none, st, dom)) ∧
    ((executeAction patternId (some p) "hide" freshId st dom).1.isSome = true) ∧
    (∀ r st' dom',
      executeAction patternId (some p) actionType freshId st dom = (some r, st', dom') →
      r.actionId = freshId ∧ tableGet st'.appliedActions freshId = some r ∧
        (¬ st.appliedActions.any (fun pr => pr.1 = freshId) →
          st'.appliedActions = st.appliedActions ++ [(freshId, r)])) := by
  refine ⟨rfl, ?_, ?_, ?_⟩
  · intro hna hnh
    simp only [executeAction]
    rw [if_pos ⟨hna, hnh⟩]
  · simp [executeAction, runImpl, hideElement]
  · intro r st' dom' heq
    by_cases hval : ¬ (getAvailableActions patternId).contains actionType ∧
        actionType ≠ "hide"
    · rw [show executeAction patternId (some p) actionType freshId st dom =
          (Option.none, st, dom) by simp only [executeAction]; rw [if_pos hval]] at heq
      exact absurd (congrArg Prod.fst heq) (by simp)
    · rcases hrun : runImpl actionType p dom with ⟨ro, dom1⟩
      cases ro with
      | none =>
        rw [show executeAction patternId (some p) actionType freshId st dom =
            (Option.none, st, dom1) by
          simp only [executeAction]; rw [if_neg hval, hrun]] at heq
        exact absurd (congrArg Prod.fst heq) (by simp)
      | some r0 =>
        have heq2 :
            (some
              { r0 with
                actionId := freshId
                patternId := patternId
                actionType := actionType },
             { st with
                appliedActions := tableSet st.appliedActions freshId
                  { r0 with
                    actionId := freshId
                    patternId := patternId
                    actionType := actionType } },
             setAttrDom dom1 p "data-lighton-action-id" freshId) =
            ((some r : Option ActionRecord), st', dom') := by
          rw [← heq]
          simp only [executeAction]
          rw [if_neg hval, hrun]
        have h1 := congrArg Prod.fst heq2
        have h2 := congrArg (fun x => x.2.1) heq2
        simp only at h1 h2
        have hr0 :
            { r0 with
              actionId := freshId
              patternId := patternId
              actionType := actionType } = r :=
          Option.some.inj h1
        refine ⟨by rw [← hr0], ?_, ?_⟩
        · rw [← h2, hr0]
          exact tableGet_tableSet st.appliedActions freshId _
        · intro hfresh
          rw [← h2, hr0]
          exact tableSet_append_of_fresh st.appliedActions freshId r hfresh

/-- Witness for C8 at concrete inputs: "uncheck" is not registered for
the "hidden-cost" rule and is rejected; "hide" always executes; the
successful sample execution stored its record under the fresh id. -/
theorem executeAction_validation_witness :
    ¬ (getAvailableActions "hidden-cost").contains "uncheck" ∧
    ("uncheck" : String) ≠ "hide" ∧
    executeAction "hidden-cost" (some [0]) "uncheck" "f1" ExecState.initial sampleDom =
      (Option.none, ExecState.initial, sampleDom) ∧
    execSample = (some execSampleRecord, execSampleState, execSampleDom) ∧
    execSampleRecord.actionId = "a1" ∧
    tableGet execSampleState.appliedActions "a1" = some execSampleRecord ∧
    execSampleState.appliedActions =
      ExecState.initial.appliedActions ++ [("a1", execSampleRecord)] := by
  have hmain := executeAction_validation "hidden-cost" "uncheck" "f1"
    ExecState.initial sampleDom [0]
  have hreject := hmain.2.1 (by decide) (by decide)
  have hsucc := (executeAction_validation "hidden-cost" "hide" "a1"
    ExecState.initial sampleDom [0]).2.2.2 execSampleRecord execSampleState
    execSampleDom rfl
  exact ⟨by decide, by decide, hreject, rfl, hsucc.1, hsucc.2.1,
    hsucc.2.2 (by decide)⟩

/-- C10: without a parent, `equalizeVisualHierarchy` is null and leaves
the document unchanged; with a parent but no comparable sibling it is
exactly the `neutralizeHierarchy` fallback, whose record kind is
"neutralize". -/
theorem equalizeVisualHierarchy_edge_cases (p : List Nat) (dom : Dom) :
    (parentElem dom p = Option.none →
      equalizeVisualHierarchy p dom = (Option.none, dom)) ∧
    (∀ parent, parentElem dom p = some parent →
      (childrenOf dom parent.path).filter (fun el =>
        decide (el ≠ getElemD dom p) &&
          !(matchesSelList el [.tag "script", .tag "style", .tag "br"])) = [] →
      equalizeVisualHierarchy p dom = neutralizeHierarchy p dom) ∧
    ((neutralizeHierarchy p dom).1.map (·.type) = some "neutralize") := by
  refine ⟨?_, ?_, rfl⟩
  · intro h
    simp [equalizeVisualHierarchy, h]
  · intro parent hpar hsib
    simp only [equalizeVisualHierarchy, hpar, hsib]

/-- Witness for C10: the single element of the sample document has the
body as parent, no siblings, and equalize falls back to neutralize. -/
theorem equalizeVisualHierarchy_edge_cases_witness :
    parentElem sampleDom [0] = some { path := [] } ∧
    ((childrenOf sampleDom []).filter (fun el =>
        decide (el ≠ getElemD sampleDom [0]) &&
          !(matchesSelList el [.tag "script", .tag "style", .tag "br"]))) = [] ∧
    equalizeVisualHierarchy [0] sampleDom = neutralizeHierarchy [0] sampleDom ∧
    parentElem ([] : Dom) [] = Option.none ∧
    equalizeVisualHierarchy [] ([] : Dom) = (Option.none, ([] : Dom)) :=
  ⟨rfl, rfl,
   (equalizeVisualHierarchy_edge_cases [0] sampleDom).2.1 { path := [] } rfl rfl,
   rfl,
   (equalizeVisualHierarchy_edge_cases [] ([] : Dom)).1 rfl⟩

/-- C5 (code bug): `clearAll` has no per-record exception handling — when
the first record's revert throws, the second record's revert is never
attempted (its hide is still in effect afterwards) and the table is not
emptied, contradicting the specified per-record tolerance. -/
theorem clearAll_aborts_on_partial_failure :
    clearAll clearState hiddenPair.2 = .error (clearState, hiddenPair.2) ∧
    getAppliedCount clearState = 2 ∧
    styleGet (getElemD hiddenPair.2 [1]).style "display" = "none" ∧
    okRecord.restore hiddenPair.2 =
      some (removeAttrDom (setInline hiddenPair.2 [1] "display" "") [1]
        "data-lighton-hidden") := by
  exact ⟨rfl, rfl, rfl, rfl⟩

/-- C9 (corrected): the executor never runs `equalizeButtons` — the kind
is neither registered for any rule nor dispatched by the switch, so
execution through the executor returns null for every rule; only the
direct implementation performs the equalisation. -/
theorem equalizeButtons_unreachable_via_executor (patternId freshId : String)
    (st : ExecState) (dom : Dom) (p : List Nat) :
    executeAction patternId (some p) "equalizeButtons" freshId st dom =
      (Option.none, st, dom) ∧
    (eqBtnRun.1.map (·.type) = some "equalize") ∧
    styleGet (getElemD eqBtnRun.2 [0, 0]).style "minWidth" =
      styleGet (getElemD eqBtnRun.2 [0, 1]).style "minWidth" ∧
    styleGet (getElemD eqBtnRun.2 [0, 0]).style "minHeight" =
      styleGet (getElemD eqBtnRun.2 [0, 1]).style "minHeight" ∧
    styleGet (getElemD eqBtnRun.2 [0, 0]).style "fontSize" =
      styleGet (getElemD eqBtnRun.2 [0, 1]).style "fontSize" ∧
    styleGet (getElemD eqBtnRun.2 [0, 0]).style "backgroundColor" = "#6366F1" ∧
    styleGet (getElemD eqBtnRun.2 [0, 1]).style "backgroundColor" = "#0D9488" ∧
    styleGet (getElemD eqBtnRun.2 [0, 0]).style "fontFamily" = "sans-serif" ∧
    styleGet (getElemD eqBtnRun.2 [0, 1]).style "fontFamily" = "sans-serif" := by
  have hnotreg : ¬ (getAvailableActions patternId).contains "equalizeButtons" := by
    intro hc
    unfold getAvailableActions at hc
    rcases hfind : actionConfig.find? (fun pr => pr.1 = patternId) with _ | pr
    · rw [hfind] at hc
      simp at hc
    · rw [hfind] at hc
      have hmem := List.mem_of_find?_eq_some hfind
      have hall : ∀ q ∈ actionConfig, q.2.available.contains "equalizeButtons" = false := by
        decide
      have := hall pr hmem
      rw [this] at hc
      simp at hc
  refine ⟨?_, ?_, ?_, ?_, ?_, ?_, ?_, ?_, ?_⟩
  · simp only [executeAction]
    rw [if_pos ⟨hnotreg, by decide⟩]
  all_goals decide

/-- C9 counterexample: the spec-scenario dialog is detected by the
asymmetry detector at the dialog container, yet executing the
`equalizeButtons` action kind through the executor returns null, not a
record. -/
theorem equalizeButtons_executor_counterexample :
    (processAsymmetricButtonsDetector asymDetector dialogDom []).map (·.element) =
      [[0]] ∧
    executeAction "asymmetric-buttons" (some [0]) "equalizeButtons" "f1"
      ExecState.initial dialogDom = (Option.none, ExecState.initial, dialogDom) := by
  exact ⟨by decide, rfl⟩

theorem endPreview_previewing_none (st : ExecState) (dom : Dom) :
    ((endPreview st dom).2.1).previewingActionId = Option.none := by
  rcases hprev : st.previewingActionId with _ | pid
  · simp only [endPreview, hprev]
  · simp only [endPreview, hprev]
    rcases htab : tableGet st.appliedActions pid with _ | action
    · simp [htab]
    · simp only [htab]
      by_cases hcond : action.patternId ≠ "" ∧ action.actionType ≠ ""
      · rw [if_pos hcond]
        rcases hrun : runImpl action.actionType action.element dom with ⟨ro, dom1⟩
        cases ro <;> rfl
      · rw [if_neg hcond]

/-- C3: the preview state machine — previewing the active id is a no-op
success; previewing while another preview is active first ends that
preview; previewing from idle invokes the stored record's revert without
discarding the record and enters the previewing state; ending from idle
is a no-op; ending an active preview re-executes the recorded rule, node
and kind, overwrites the stored record under the same action id with the
regenerated one, and returns to idle. -/
theorem preview_state_machine (actionId : String) (st : ExecState) (dom : Dom) :
    (st.previewingActionId = some actionId →
      previewOriginal actionId st dom = some (true, st, dom)) ∧
    (∀ other, st.previewingActionId = some other → other ≠ actionId →
      previewOriginal actionId st dom =
        previewOriginal actionId (endPreview st dom).2.1 (endPreview st dom).2.2) ∧
    (st.previewingActionId = Option.none →
      ∀ a, tableGet st.appliedActions actionId = some a →
      ∀ dom1, a.restore dom = some dom1 →
        previewOriginal actionId st dom =
          some (true, { st with previewingActionId := some actionId }, dom1) ∧
        tableGet ({ st with previewingActionId := some actionId }).appliedActions
          actionId = some a) ∧
    (st.previewingActionId = Option.none → endPreview st dom = (false, st, dom)) ∧
    (∀ pid a, st.previewingActionId = some pid →
      tableGet st.appliedActions pid = some a →
      a.patternId ≠ "" → a.actionType ≠ "" →
      ∀ r dom1, runImpl a.actionType a.element dom = (some r, dom1) →
        endPreview st dom =
          (true,
           ⟨tableSet st.appliedActions a.actionId
              { r with
                actionId := a.actionId
                patternId := a.patternId
                actionType := a.actionType },
            Option.none⟩,
           dom1)) := by
  refine ⟨?_, ?_, ?_, ?_, ?_⟩
  · intro h
    simp [previewOriginal, h]
  · intro other hprev hne
    have hno : ¬ st.previewingActionId = some actionId := by
      rw [hprev]
      intro h
      exact hne (Option.some.inj h)
    have h2 : ((endPreview st dom).2.1).previewingActionId = Option.none :=
      endPreview_previewing_none st dom
    have hno2 : ¬ ((endPreview st dom).2.1).previewingActionId = some actionId := by
      rw [h2]
      simp
    rw [previewOriginal, if_neg hno, hprev]
    rw [previewOriginal, if_neg hno2, h2]
  · intro hidle a htab dom1 hres
    constructor
    · rw [previewOriginal, if_neg (by rw [hidle]; simp), hidle]
      simp only [htab, hres]
    · simpa using htab
  · intro hidle
    rw [endPreview, hidle]
  · intro pid a hprev htab hpid htype r dom1 hrun
    rw [endPreview, hprev]
    simp only [htab]
    rw [if_pos ⟨hpid, htype⟩, hrun]

/-- Witness for C3 at a concrete executed hide action: same-id preview is
a no-op; a different active preview routes through `endPreview`; idle
preview reverts and keeps the record; idle `endPreview` is a no-op;
active `endPreview` re-executes and overwrites under the same id. -/
theorem preview_state_machine_witness :
    previewingSampleState.previewingActionId = some "a1" ∧
    previewOriginal "a1" previewingSampleState execSampleDom =
      some (true, previewingSampleState, execSampleDom) ∧
    otherPreviewState.previewingActionId = some "b9" ∧
    previewOriginal "a1" otherPreviewState execSampleDom =
      previewOriginal "a1" (endPreview otherPreviewState execSampleDom).2.1
        (endPreview otherPreviewState execSampleDom).2.2 ∧
    execSampleState.previewingActionId = Option.none ∧
    tableGet execSampleState.appliedActions "a1" = some execSampleRecord ∧
    execSampleRecord.restore execSampleDom = some execSampleRestored ∧
    (previewOriginal "a1" execSampleState execSampleDom =
      some (true, { execSampleState with previewingActionId := some "a1" },
        execSampleRestored) ∧
     tableGet ({ execSampleState with
        previewingActionId := some "a1" }).appliedActions "a1" =
          some execSampleRecord) ∧
    endPreview execSampleState execSampleDom = (false, execSampleState, execSampleDom) ∧
    runImpl execSampleRecord.actionType execSampleRecord.element execSampleDom =
      (some reExecRecord, reExecSample.2) ∧
    endPreview previewingSampleState execSampleDom =
      (true,
       ⟨tableSet previewingSampleState.appliedActions execSampleRecord.actionId
          { reExecRecord with
            actionId := execSampleRecord.actionId
            patternId := execSampleRecord.patternId
            actionType := execSampleRecord.actionType },
        Option.none⟩,
       reExecSample.2) :=
  ⟨rfl,
   (preview_state_machine "a1" previewingSampleState execSampleDom).1 rfl,
   rfl,
   (preview_state_machine "a1" otherPreviewState execSampleDom).2.1 "b9" rfl
     (by decide),
   rfl, rfl, rfl,
   (preview_state_machine "a1" execSampleState execSampleDom).2.2.1 rfl
     execSampleRecord rfl execSampleRestored rfl,
   (preview_state_machine "a1" execSampleState execSampleDom).2.2.2.1 rfl,
   rfl,
   (preview_state_machine "a1" previewingSampleState execSampleDom).2.2.2.2 "a1"
     execSampleRecord rfl rfl (by decide) (by decide) reExecRecord reExecSample.2 rfl⟩

theorem flatMap_congr_of_mem {α β : Type} {l : List α} {f g : α → List β}
    (h : ∀ x ∈ l, f x = g x) : l.flatMap f = l.flatMap g := by
  induction l with
  | nil => rfl
  | cons a as ih =>
    simp only [List.flatMap_cons]
    rw [h a (.head _), ih (fun x hx => h x (.tail _ hx))]

/-- C2 counterexample: the same unchanged tree scanned twice with the
same one-rule catalog yields different detection sets — the text-detector
match of the first scan is marked processed and excluded from the second
scan's candidate list, so the second scan is empty. -/
theorem scan_rescan_counterexample :
    (scan [textPatternRule] [] textDom []).1 = [⟨"p1", [0]⟩] ∧
    (scan [textPatternRule] [] textDom []).2 = [[0]] ∧
    (scan [textPatternRule] (scan [textPatternRule] [] textDom []).2 textDom []).1 =
      [] := by
  exact ⟨by decide, by decide, by decide⟩

/-- C2 amended: a scan's detection set does not depend on the persistent
processed-elements set as long as no registered detector is of text type
(selector and combined detectors query the root directly), so rescans of
an unchanged tree with such a catalog are identical; with a text
detector the second scan drops previously matched nodes. -/
theorem scan_deterministic_without_text_detectors
    (patterns : List PatternDef) (dom : Dom) (root : List Nat)
    (processedA processedB : List (List Nat))
    (hnotext : ∀ pat ∈ patterns, ∀ det ∈ pat.detectors, det.type ≠ "text") :
    (scan patterns processedA dom root).1 = (scan patterns processedB dom root).1 := by
  by_cases hemp : patterns.isEmpty
  · simp [scan, hemp]
  · have hrun : ∀ (det : Detector), det.type ≠ "text" → ∀ e1 e2,
        runDetector det e1 dom root = runDetector det e2 dom root := by
      intro det hne e1 e2
      unfold runDetector
      rw [if_neg hne, if_neg hne]
    have hflat : ∀ (e1 e2 : List Elem),
        patterns.flatMap (fun pattern => pattern.detectors.flatMap (fun det =>
          (runDetector det e1 dom root).map
            (fun m => RawResult.mk pattern.id m.element))) =
        patterns.flatMap (fun pattern => pattern.detectors.flatMap (fun det =>
          (runDetector det e2 dom root).map
            (fun m => RawResult.mk pattern.id m.element))) := by
      intro e1 e2
      apply flatMap_congr_of_mem
      intro pat hpat
      apply flatMap_congr_of_mem
      intro det hdet
      rw [hrun det (hnotext pat hpat det hdet) e1 e2]
    simp only [scan, if_neg hemp]
    exact congrArg deduplicateResults (hflat _ _)

/-- Witness for C2 amended at a selector-only catalog: scanning with an
empty processed set and with the first scan's processed set yields the
same detections, which are non-trivial. -/
theorem scan_deterministic_without_text_detectors_witness :
    (∀ pat ∈ [selectorPatternRule], ∀ det ∈ pat.detectors, det.type ≠ "text") ∧
    (scan [selectorPatternRule] [] selDom []).1 = [⟨"s1", [0]⟩] ∧
    (scan [selectorPatternRule] [] selDom []).1 =
      (scan [selectorPatternRule] [[0]] selDom []).1 :=
  ⟨by decide, by decide,
   scan_deterministic_without_text_detectors [selectorPatternRule] selDom []
     [] [[0]] (by decide)⟩

/-! ### Semantics of the executable rational pairs -/

theorem qLt_iff_val {a b : Q} (ha : 0 < a.den) (hb : 0 < b.den) :
    qLt a b = true ↔ qVal a < qVal b := by
  unfold qLt qVal
  rw [decide_eq_true_eq, div_lt_div_iff (by exact_mod_cast ha) (by exact_mod_cast hb)]
  constructor
  · intro h
    exact_mod_cast h
  · intro h
    exact_mod_cast h

theorem qLe_iff_val {a b : Q} (ha : 0 < a.den) (hb : 0 < b.den) :
    qLe a b = true ↔ qVal a ≤ qVal b := by
  unfold qLe qVal
  rw [decide_eq_true_eq, div_le_div_iff (by exact_mod_cast ha) (by exact_mod_cast hb)]
  constructor
  · intro h
    exact_mod_cast h
  · intro h
    exact_mod_cast h

theorem qVal_qMul (a b : Q) : qVal (qMul a b) = qVal a * qVal b := by
  unfold qVal qMul
  push_cast
  rw [div_mul_div_comm]

theorem qVal_qDiv (a b : Q) : qVal (qDiv a b) = qVal a / qVal b := by
  unfold qVal qDiv
  push_cast
  rw [div_div_eq_mul_div, div_mul_eq_mul_div, div_div]

theorem qVal_zero : qVal 0 = 0 := by
  have h0 : (0 : Q) = Q.mk 0 1 := rfl
  rw [h0]
  unfold qVal
  norm_num

theorem qVal_ofNat (n : Nat) : qVal (OfNat.ofNat n) = (n : ℚ) := by
  have hn : (OfNat.ofNat n : Q) = Q.mk (n : Int) 1 := rfl
  rw [hn]
  unfold qVal
  norm_num

theorem qMax2_cases (a b : Q) : qMax2 a b = a ∨ qMax2 a b = b := by
  unfold qMax2
  by_cases h : qLt a b = true
  · rw [if_pos h]
    exact .inr rfl
  · rw [if_neg h]
    exact .inl rfl

theorem qMin2_cases (a b : Q) : qMin2 a b = a ∨ qMin2 a b = b := by
  unfold qMin2
  by_cases h : qLt b a = true
  · rw [if_pos h]
    exact .inr rfl
  · rw [if_neg h]
    exact .inl rfl

theorem qVal_qMax2 {a b : Q} (ha : 0 < a.den) (hb : 0 < b.den) :
    qVal (qMax2 a b) = max (qVal a) (qVal b) := by
  unfold qMax2
  by_cases h : qLt a b = true
  · rw [if_pos h, max_eq_right (le_of_lt ((qLt_iff_val ha hb).mp h))]
  · rw [if_neg h]
    have : ¬ qVal a < qVal b := fun hc => h ((qLt_iff_val ha hb).mpr hc)
    rw [max_eq_left (not_lt.mp this)]

theorem qVal_qMin2 {a b : Q} (ha : 0 < a.den) (hb : 0 < b.den) :
    qVal (qMin2 a b) = min (qVal a) (qVal b) := by
  unfold qMin2
  by_cases h : qLt b a = true
  · rw [if_pos h, min_eq_right (le_of_lt ((qLt_iff_val hb ha).mp h))]
  · rw [if_neg h]
    have : ¬ qVal b < qVal a := fun hc => h ((qLt_iff_val hb ha).mpr hc)
    rw [min_eq_left (not_lt.mp this)]

/-- C7 counterexample: a dialog whose two buttons have equal (zero)
pixel area, equal font size and identical background classification is
still classified asymmetric and reported — the code's `areaRatio`
fallback is 10 when the minimum area is 0 — contradicting the claim that
an equal pair is never classified asymmetric. -/
theorem buttonAsymmetry_equal_pair_counterexample :
    (buttonMetricsOf zeroBtnDom (getElemD zeroBtnDom [0, 0])).area =
      (buttonMetricsOf zeroBtnDom (getElemD zeroBtnDom [0, 1])).area ∧
    (buttonMetricsOf zeroBtnDom (getElemD zeroBtnDom [0, 0])).fontSize =
      (buttonMetricsOf zeroBtnDom (getElemD zeroBtnDom [0, 1])).fontSize ∧
    (buttonMetricsOf zeroBtnDom (getElemD zeroBtnDom [0, 0])).hasBackground =
      (buttonMetricsOf zeroBtnDom (getElemD zeroBtnDom [0, 1])).hasBackground ∧
    (processAsymmetricButtonsDetector asymDetector zeroBtnDom []).map (·.element) =
      [[0]] := by
  exact ⟨by decide, by decide, by decide, by decide⟩

/-- C7 amended: a candidate container with at least two visible non-empty
controls is reported, as the container itself, exactly when the
classifier fires; with positive minimum area and font size the classifier
is precisely maxArea/minArea > 1.5 ∨ maxFont/minFont > 1.2 ∨ background
asymmetry; a pair where one control has three times the other's
(non-negative) area is always classified; an equal-area, equal-font,
equal-background pair with positive area and font size never is; but an
equal pair of zero area is classified via the ratio fallback 10. -/
theorem buttonAsymmetry_classification (det : Detector) (dom : Dom) (root : List Nat) :
    (∀ ep, (∃ m ∈ processAsymmetricButtonsDetector det dom root, m.element = ep) ↔
      ∃ modal ∈ asymmetricCandidates dom root, modal.path = ep ∧
        2 ≤ (visibleButtonsOf dom modal).length ∧
        buttonAsymmetry ((visibleButtonsOf dom modal).map (buttonMetricsOf dom)) =
          true) ∧
    (∀ metrics : List BtnMetrics,
      qLt 0 (qListMin (metrics.map (·.area))) = true →
      qLt 0 (qListMin (metrics.map (·.fontSize))) = true →
      buttonAsymmetry metrics =
        (qLt q15 (qDiv (qListMax (metrics.map (·.area)))
            (qListMin (metrics.map (·.area)))) ||
         qLt q12 (qDiv (qListMax (metrics.map (·.fontSize)))
            (qListMin (metrics.map (·.fontSize)))) ||
         (decide ((metrics.filter (·.hasBackground)).length > 0) &&
          decide ((metrics.filter (fun b => !b.hasBackground)).length > 0)))) ∧
    (∀ m1 m2 : BtnMetrics, m2.area = qMul 3 m1.area →
      0 ≤ m1.area.num → 0 < m1.area.den →
      buttonAsymmetry [m1, m2] = true) ∧
    (∀ m1 m2 : BtnMetrics, m2.area = m1.area → m2.fontSize = m1.fontSize →
      m2.hasBackground = m1.hasBackground →
      0 < m1.area.num → 0 < m1.area.den →
      0 < m1.fontSize.num → 0 < m1.fontSize.den →
      buttonAsymmetry [m1, m2] = false) ∧
    (∀ m1 m2 : BtnMetrics, m2.area = m1.area → m1.area.num = 0 →
      buttonAsymmetry [m1, m2] = true) := by
  refine ⟨?_, ?_, ?_, ?_, ?_⟩
  · intro ep
    constructor
    · rintro ⟨m, hm, rfl⟩
      rcases List.mem_flatMap.mp hm with ⟨modal, hmodal, hin⟩
      dsimp only at hin
      by_cases hlen : (visibleButtonsOf dom modal).length < 2
      · rw [if_pos hlen] at hin
        simp at hin
      · rw [if_neg hlen] at hin
        by_cases hasym : buttonAsymmetry
            ((visibleButtonsOf dom modal).map (buttonMetricsOf dom)) = true
        · rw [if_pos hasym] at hin
          rcases List.mem_singleton.mp hin with rfl
          exact ⟨modal, hmodal, rfl, Nat.le_of_not_lt hlen, hasym⟩
        · rw [if_neg hasym] at hin
          simp at hin
    · rintro ⟨modal, hmodal, rfl, hlen, hasym⟩
      have hsing :
          (DetMatch.mk modal.path
            (String.intercalate " / "
              (((visibleButtonsOf dom modal).map (buttonMetricsOf dom)).map (·.text)))
            {} 0) ∈ processAsymmetricButtonsDetector det dom root := by
        apply List.mem_flatMap.mpr
        refine ⟨modal, hmodal, ?_⟩
        dsimp only
        rw [if_neg (Nat.not_lt.mpr hlen), if_pos hasym]
        exact List.mem_singleton.mpr rfl
      exact ⟨_, hsing, rfl⟩
  · intro metrics hA hF
    unfold buttonAsymmetry
    dsimp only
    rw [if_pos hA, if_pos hF]
  · intro m1 m2 harea hnum hden
    have h3 : m2.area = Q.mk (3 * m1.area.num) (1 * m1.area.den) := by
      rw [harea]
      rfl
    have hden2 : 0 < m2.area.den := by
      rw [h3]
      simpa using hden
    have hminden : 0 < (qMin2 m1.area m2.area).den := by
      rcases qMin2_cases m1.area m2.area with h | h <;> rw [h] <;> assumption
    have hmaxden : 0 < (qMax2 m1.area m2.area).den := by
      rcases qMax2_cases m1.area m2.area with h | h <;> rw [h] <;> assumption
    have hva : (0 : ℚ) ≤ qVal m1.area :=
      div_nonneg (by exact_mod_cast hnum) (by positivity)
    have hv2 : qVal m2.area = 3 * qVal m1.area := by
      rw [harea, qVal_qMul, qVal_ofNat]
      norm_num
    unfold buttonAsymmetry
    simp only [List.map_cons, List.map_nil, qListMax, qListMin,
      List.foldl_cons, List.foldl_nil]
    rcases eq_or_lt_of_le hva with hz | hpos
    · have hminv : qVal (qMin2 m1.area m2.area) = 0 := by
        rw [qVal_qMin2 hden hden2, hv2, ← hz]
        norm_num
      have hnotlt : ¬ qLt 0 (qMin2 m1.area m2.area) = true := by
        intro hc
        have := (qLt_iff_val (by decide) hminden).mp hc
        rw [hminv, qVal_zero] at this
        exact lt_irrefl 0 this
      rw [if_neg hnotlt]
      have : qLt q15 10 = true := by decide
      rw [this]
      simp
    · have hminv : qVal (qMin2 m1.area m2.area) = qVal m1.area := by
        rw [qVal_qMin2 hden hden2, hv2]
        exact min_eq_left (by linarith)
      have hmaxv : qVal (qMax2 m1.area m2.area) = 3 * qVal m1.area := by
        rw [qVal_qMax2 hden hden2, hv2]
        exact max_eq_right (by linarith)
      have hlt0 : qLt 0 (qMin2 m1.area m2.area) = true := by
        rw [qLt_iff_val (by decide) hminden, qVal_zero, hminv]
        exact hpos
      rw [if_pos hlt0]
      have hdivden : 0 < (qDiv (qMax2 m1.area m2.area) (qMin2 m1.area m2.area)).den := by
        unfold qDiv
        have hminnum : 0 < (qMin2 m1.area m2.area).num := by
          by_contra hc
          have hle : qVal (qMin2 m1.area m2.area) ≤ 0 :=
            div_nonpos_of_nonpos_of_nonneg (by exact_mod_cast not_lt.mp hc)
              (by positivity)
          rw [hminv] at hle
          linarith
        exact mul_pos hmaxden hminnum
      have hratio : qVal (qDiv (qMax2 m1.area m2.area) (qMin2 m1.area m2.area)) = 3 := by
        rw [qVal_qDiv, hmaxv, hminv]
        field_simp
      have : qLt q15 (qDiv (qMax2 m1.area m2.area) (qMin2 m1.area m2.area)) = true := by
        rw [qLt_iff_val (by decide) hdivden, hratio]
        norm_num [qVal, q15]
      rw [this]
      simp
  · intro m1 m2 harea hfont hbg hanum haden hfnum hfden
    have haval : (0 : ℚ) < qVal m1.area :=
      div_pos (by exact_mod_cast hanum) (by exact_mod_cast haden)
    have hfval : (0 : ℚ) < qVal m1.fontSize :=
      div_pos (by exact_mod_cast hfnum) (by exact_mod_cast hfden)
    unfold buttonAsymmetry
    simp only [List.map_cons, List.map_nil, qListMax, qListMin,
      List.foldl_cons, List.foldl_nil]
    rw [harea, hfont]
    have hmaxa : qMax2 m1.area m1.area = m1.area := by
      unfold qMax2
      exact ite_self _
    have hmina : qMin2 m1.area m1.area = m1.area := by
      unfold qMin2
      exact ite_self _
    have hmaxf : qMax2 m1.fontSize m1.fontSize = m1.fontSize := by
      unfold qMax2
      exact ite_self _
    have hminf : qMin2 m1.fontSize m1.fontSize = m1.fontSize := by
      unfold qMin2
      exact ite_self _
    rw [hmaxa, hmina, hmaxf, hminf]
    have hlta : qLt 0 m1.area = true := by
      rw [qLt_iff_val (by decide) haden, qVal_zero]
      exact haval
    have hltf : qLt 0 m1.fontSize = true := by
      rw [qLt_iff_val (by decide) hfden, qVal_zero]
      exact hfval
    rw [if_pos hlta, if_pos hltf]
    have hdda : 0 < (qDiv m1.area m1.area).den := by
      unfold qDiv
      exact mul_pos haden hanum
    have hddf : 0 < (qDiv m1.fontSize m1.fontSize).den := by
      unfold qDiv
      exact mul_pos hfden hfnum
    have hra : qVal (qDiv m1.area m1.area) = 1 := by
      rw [qVal_qDiv]
      field_simp
    have hrf : qVal (qDiv m1.fontSize m1.fontSize) = 1 := by
      rw [qVal_qDiv]
      field_simp
    have hba : qLt q15 (qDiv m1.area m1.area) = false := by
      have : ¬ qLt q15 (qDiv m1.area m1.area) = true := by
        rw [qLt_iff_val (by decide) hdda, hra]
        norm_num [qVal, q15]
      exact Bool.not_eq_true _ ▸ this
    have hbf : qLt q12 (qDiv m1.fontSize m1.fontSize) = false := by
      have : ¬ qLt q12 (qDiv m1.fontSize m1.fontSize) = true := by
        rw [qLt_iff_val (by decide) hddf, hrf]
        norm_num [qVal, q12]
      exact Bool.not_eq_true _ ▸ this
    rw [hba, hbf]
    cases hflag : m1.hasBackground with
    | true => simp [List.filter, hbg, hflag]
    | false => simp [List.filter, hbg, hflag]
  · intro m1 m2 harea hz
    unfold buttonAsymmetry
    simp only [List.map_cons, List.map_nil, qListMax, qListMin,
      List.foldl_cons, List.foldl_nil]
    rw [harea]
    have hmina : qMin2 m1.area m1.area = m1.area := by
      unfold qMin2
      exact ite_self _
    rw [hmina]
    have hnot : qLt 0 m1.area = false := by
      unfold qLt
      simp [hz, show Q.num 0 = 0 from rfl, show Q.den 0 = 1 from rfl]
    rw [hnot]
    have h10 : qLt q15 (10 : Q) = true := by decide
    simp [h10]

/-- Witness for C7 amended at concrete dialog metrics: the classifier
agrees with the ratio formula on the dialog pair; a 3× pair classifies;
an equal positive pair does not; an equal zero-area pair does. -/
theorem buttonAsymmetry_classification_witness :
    (qLt 0 (qListMin ([bmContinue, bmNoThanks].map (·.area))) = true ∧
     qLt 0 (qListMin ([bmContinue, bmNoThanks].map (·.fontSize))) = true ∧
     buttonAsymmetry [bmContinue, bmNoThanks] =
       (qLt q15 (qDiv (qListMax ([bmContinue, bmNoThanks].map (·.area)))
           (qListMin ([bmContinue, bmNoThanks].map (·.area)))) ||
        qLt q12 (qDiv (qListMax ([bmContinue, bmNoThanks].map (·.fontSize)))
           (qListMin ([bmContinue, bmNoThanks].map (·.fontSize)))) ||
        (decide (([bmContinue, bmNoThanks].filter (·.hasBackground)).length > 0) &&
         decide (([bmContinue, bmNoThanks].filter
            (fun b => !b.hasBackground)).length > 0)))) ∧
    (bm3x.area = qMul 3 bmNoThanks.area ∧ 0 ≤ bmNoThanks.area.num ∧
     0 < bmNoThanks.area.den ∧ buttonAsymmetry [bmNoThanks, bm3x] = true) ∧
    (0 < bmNoThanks.area.num ∧ 0 < bmNoThanks.fontSize.num ∧
     buttonAsymmetry [bmNoThanks, bmNoThanks] = false) ∧
    (bmZero.area.num = 0 ∧ buttonAsymmetry [bmZero, bmZero] = true) :=
  ⟨⟨by decide, by decide,
    (buttonAsymmetry_classification asymDetector zeroBtnDom []).2.1
      [bmContinue, bmNoThanks] (by decide) (by decide)⟩,
   ⟨rfl, by decide, by decide,
    (buttonAsymmetry_classification asymDetector zeroBtnDom []).2.2.1
      bmNoThanks bm3x rfl (by decide) (by decide)⟩,
   ⟨by decide, by decide,
    (buttonAsymmetry_classification asymDetector zeroBtnDom []).2.2.2.1
      bmNoThanks bmNoThanks rfl rfl rfl (by decide) (by decide) (by decide)
      (by decide)⟩,
   ⟨by decide,
    (buttonAsymmetry_classification asymDetector zeroBtnDom []).2.2.2.2
      bmZero bmZero rfl (by decide)⟩⟩

theorem qLt_qDiv_eq_qLt_qMul (c a m : Q) : qLt c (qDiv a m) = qLt (qMul c m) a := by
  unfold qLt qDiv qMul
  rw [decide_eq_decide]
  have h1 : c.num * (a.den * m.num) = c.num * m.num * a.den := by ring
  have h2 : a.num * m.den * c.den = a.num * (c.den * m.den) := by ring
  rw [h1, h2]

theorem sizeSignal_eq (area m : Q) :
    (if qLt q115 (if qLt 0 m then qDiv area m else 1) then (1 : Nat) else 0) =
    (if qLt 0 m && qLt (qMul q115 m) area then (1 : Nat) else 0) := by
  by_cases hm : qLt 0 m = true
  · rw [if_pos hm]
    simp only [hm, Bool.true_and]
    rw [qLt_qDiv_eq_qLt_qMul]
  · have hm' : qLt 0 m = false := Bool.not_eq_true _ ▸ hm
    rw [hm']
    have h1 : qLt q115 (1 : Q) = false := by decide
    simp [h1]

/-- C6 counterexample: a card whose area is exactly 1.15× the sibling
mean with badge text.  By the claim's wording the size signal fires
(area ≥ 1.15× mean) for a total score of 3, so the card must be
reported; the code's comparison is strict, scores 2, and reports
nothing. -/
theorem prominence_boundary_counterexample :
    prominenceClaimSizeSignal (getElemD boundaryDom [0, 2])
      [getElemD boundaryDom [0, 0], getElemD boundaryDom [0, 1]] = 1 ∧
    badgeTextPatterns.any
      (patTest (getVisibleText boundaryDom (getElemD boundaryDom [0, 2]))) = true ∧
    (calculateVisualProminence boundaryDom (getElemD boundaryDom [0, 2])
      [getElemD boundaryDom [0, 0], getElemD boundaryDom [0, 1]]).1 = 2 ∧
    prominenceThreshold hierDetector = 3 ∧
    processVisualHierarchyDetector hierDetector boundaryDom [] = [] := by
  exact ⟨by decide, by decide, by decide, by decide, by decide⟩

/-- C6 amended: the prominence score is the additive signal sum the
claim lists, with the size signal strict and gated on a positive sibling
mean; exactly the qualifying children of qualifying containers whose
score reaches the configurable threshold (default 3) are reported; and
in the three-sibling scenario the "Most Popular" 20%-larger card scores
exactly 3 and is the only reported node while its siblings score 0. -/
theorem prominence_scoring (det : Detector) (dom : Dom) (root : List Nat) :
    (∀ e siblings, (calculateVisualProminence dom e siblings).1 =
      prominenceSpecScore dom e siblings) ∧
    (∀ ep, (∃ m ∈ processVisualHierarchyDetector det dom root, m.element = ep) ↔
      ∃ container ∈ hierarchyContainers det dom root,
        2 ≤ (hierarchyQualifyingChildren dom container).length ∧
        (det.contextTextPatterns.isSome &&
          !matchesPatterns (getVisibleText dom container)
            (det.contextTextPatterns.getD [])) = false ∧
        (!isPricingContextText (getVisibleText dom container) &&
          !det.skipContextCheck) = false ∧
        ∃ child ∈ hierarchyQualifyingChildren dom container, child.path = ep ∧
          prominenceThreshold det ≤
            (calculateVisualProminence dom child
              ((hierarchyQualifyingChildren dom container).filter
                (fun c => c ≠ child))).1) ∧
    ((processVisualHierarchyDetector hierDetector scenDom []).map (·.element) =
        [[0, 2]] ∧
     (calculateVisualProminence scenDom (getElemD scenDom [0, 2])
        [getElemD scenDom [0, 0], getElemD scenDom [0, 1]]).1 = 3 ∧
     (calculateVisualProminence scenDom (getElemD scenDom [0, 0])
        [getElemD scenDom [0, 1], getElemD scenDom [0, 2]]).1 = 0 ∧
     (calculateVisualProminence scenDom (getElemD scenDom [0, 1])
        [getElemD scenDom [0, 0], getElemD scenDom [0, 2]]).1 = 0) := by
  refine ⟨?_, ?_, by decide, by decide, by decide, by decide⟩
  · intro e siblings
    unfold calculateVisualProminence prominenceSpecScore
    dsimp only
    rw [sizeSignal_eq]
  · intro ep
    constructor
    · rintro ⟨m, hm, rfl⟩
      rcases List.mem_flatMap.mp hm with ⟨container, hcont, hin⟩
      dsimp only at hin
      by_cases hlen : (hierarchyQualifyingChildren dom container).length < 2
      · rw [if_pos hlen] at hin
        simp at hin
      · rw [if_neg hlen] at hin
        by_cases hctx : (det.contextTextPatterns.isSome &&
            !matchesPatterns (getVisibleText dom container)
              (det.contextTextPatterns.getD [])) = true
        · rw [if_pos hctx] at hin
          simp at hin
        · rw [if_neg hctx] at hin
          by_cases hpr : (!isPricingContextText (getVisibleText dom container) &&
              !det.skipContextCheck) = true
          · rw [if_pos hpr] at hin
            simp at hin
          · rw [if_neg hpr] at hin
            rcases List.mem_filterMap.mp hin with ⟨child, hchild, hf⟩
            by_cases hscore : (calculateVisualProminence dom child
                ((hierarchyQualifyingChildren dom container).filter
                  (fun c => c ≠ child))).1 ≥ prominenceThreshold det
            · rw [if_pos hscore] at hf
              have hmval := Option.some.inj hf
              refine ⟨container, hcont, Nat.le_of_not_lt hlen,
                Bool.not_eq_true _ ▸ hctx, Bool.not_eq_true _ ▸ hpr,
                child, hchild, ?_, hscore⟩
              rw [← hmval]
            · rw [if_neg hscore] at hf
              simp at hf
    · rintro ⟨container, hcont, hlen, hctx, hpr, child, hchild, rfl, hscore⟩
      have hsing :
          (DetMatch.mk child.path (getVisibleText dom child) {}
            (calculateVisualProminence dom child
              ((hierarchyQualifyingChildren dom container).filter
                (fun c => c ≠ child))).1) ∈
            processVisualHierarchyDetector det dom root := by
        apply List.mem_flatMap.mpr
        refine ⟨container, hcont, ?_⟩
        dsimp only
        rw [if_neg (Nat.not_lt.mpr hlen), if_neg (by rw [hctx]; simp),
          if_neg (by rw [hpr]; simp)]
        apply List.mem_filterMap.mpr
        refine ⟨child, hchild, ?_⟩
        dsimp only
        rw [if_pos hscore]
      exact ⟨_, hsing, rfl⟩

end LightOn
